import Mathlib

/-!
Verification development for the PCCC protocol core of the plcio library.

The Go sources are embedded shallowly: byte slices become `List Nat` whose
entries are byte values, machine integers become `Nat`/`Int` with explicit
`% 2 ^ w` where overflow matters, fallible functions return `Except`/`Option`,
and the network is abstracted as an oracle passed to the orchestration code.
-/

namespace Plcio

/-! ### Byte-slice helpers -/

/-- Byte of a slice at an index, 0 when out of range (in the Go sources every
access is guarded by an explicit length check before indexing). -/
def byteAt (data : List Nat) (i : Nat) : Nat := data.getD i 0

/-- Little-endian 16-bit value of the first two bytes of a slice,
binary.LittleEndian.Uint16. -/
def le16 (data : List Nat) : Nat := byteAt data 0 + 256 * byteAt data 1

/-- Little-endian 32-bit value of the first four bytes of a slice,
binary.LittleEndian.Uint32. -/
def le32 (data : List Nat) : Nat :=
  byteAt data 0 + 256 * byteAt data 1 + 65536 * byteAt data 2 + 16777216 * byteAt data 3

/-- Interpretation of a 16-bit unsigned value as a Go int16. -/
def int16OfNat (n : Nat) : Int :=
  if n % 65536 < 32768 then (n % 65536 : Int) else (n % 65536 : Int) - 65536

/-- Interpretation of a 32-bit unsigned value as a Go int32. -/
def int32OfNat (n : Nat) : Int :=
  if n % 4294967296 < 2147483648 then (n % 4294967296 : Int)
  else (n % 4294967296 : Int) - 4294967296

/-! ### File type codes and element sizes (pccc/types.go) -/

def FileTypeOutput : Nat := 0x82
def FileTypeInput : Nat := 0x83
def FileTypeStatus : Nat := 0x84
def FileTypeBinary : Nat := 0x85
def FileTypeTimer : Nat := 0x86
def FileTypeCounter : Nat := 0x87
def FileTypeControl : Nat := 0x88
def FileTypeInteger : Nat := 0x89
def FileTypeFloat : Nat := 0x8A
def FileTypeString : Nat := 0x8D
def FileTypeASCII : Nat := 0x8E
def FileTypeLong : Nat := 0x91
def FileTypeMessage : Nat := 0x92
def FileTypePID : Nat := 0x93

/-- ElementSize of pccc/types.go: element sizes in bytes for each file type
(Output, Input, Status, Binary, Integer, ASCII: 2; Timer, Counter, Control: 6;
Float, Long: 4; String: 84; Message: 50; PID: 46).
Unknown types default to a 16-bit word (2 bytes). -/
def ElementSize : Nat → Nat
  | 0x82 => 2    -- Output
  | 0x83 => 2    -- Input
  | 0x84 => 2    -- Status
  | 0x85 => 2    -- Binary
  | 0x86 => 6    -- Timer
  | 0x87 => 6    -- Counter
  | 0x88 => 6    -- Control
  | 0x89 => 2    -- Integer
  | 0x8A => 4    -- Float
  | 0x8D => 84   -- String
  | 0x8E => 2    -- ASCII
  | 0x91 => 4    -- Long
  | 0x92 => 50   -- Message
  | 0x93 => 46   -- PID
  | _ => 2

/-- Sub-element word size for Timer, Counter and Control files. -/
def SubElementSize : Nat := 2

/-- IsComplexType of pccc/types.go: file types with sub-elements. -/
def IsComplexType (fileType : Nat) : Bool :=
  fileType == FileTypeTimer || fileType == FileTypeCounter || fileType == FileTypeControl

theorem elementSize_pos (fileType : Nat) : 0 < ElementSize fileType := by
  unfold ElementSize; split <;> decide

theorem elementSize_le_84 (fileType : Nat) : ElementSize fileType ≤ 84 := by
  unfold ElementSize; split <;> decide

theorem elementSize_of_complex (fileType : Nat) (h : IsComplexType fileType) :
    ElementSize fileType = 6 := by
  simp only [IsComplexType, FileTypeTimer, FileTypeCounter, FileTypeControl, Bool.or_eq_true,
    beq_iff_eq] at h
  rcases h with (h | h) | h <;> subst h <;> decide

/-! ### PCCC command constants (pccc/services.go) -/

def CmdTypedCommand : Nat := 0x0F
def CmdTypedReply : Nat := 0x4F
def CmdDiagnosticStatus : Nat := 0x06
def CmdDiagnosticReply : Nat := 0x46
def StsSuccess : Nat := 0x00

/-! ### Compact value encoding (pccc/command.go, appendCompactValue) -/

/-- appendCompactValue of pccc/command.go: values 0-254 as a single byte,
values 255 and above as 0xFF followed by the 16-bit little-endian value.
The Go parameter is a uint16, so `value` is meant to be below 65536;
`binary.LittleEndian.AppendUint16` emits `value % 256` then `value / 256 % 256`. -/
def appendCompactValue (buf : List Nat) (value : Nat) : List Nat :=
  if value < 255 then buf ++ [value]
  else buf ++ [0xFF, value % 256, value / 256 % 256]

/-- Modelled from the spec: the decoder that mirrors the compact-value
encoding (spec section 4.3 says the address-field decoder mirrors
appendCompactValue; the repository source under src/ contains only the
encoder side). A first byte below 255 is the value itself; the byte 0xFF
announces a full 16-bit little-endian value in the next two bytes. -/
def decodeCompactValue (bytes : List Nat) : Option (Nat × List Nat) :=
  match bytes with
  | [] => none
  | b :: rest =>
    if b < 255 then some (b, rest)
    else
      match rest with
      | lo :: hi :: rest2 => some (lo + 256 * hi, rest2)
      | _ => none

/-! ### PCCC status names (pccc/services.go) -/

/-- Hexadecimal digit character, uppercase, mirroring Go's %X format verb. -/
def hexDigit (n : Nat) : Char :=
  if n < 10 then Char.ofNat (48 + n) else Char.ofNat (55 + n)

/-- Two-digit uppercase hexadecimal rendering of a byte, Go's %02X. -/
def hexByte (n : Nat) : String :=
  String.mk [hexDigit (n / 16 % 16), hexDigit (n % 16)]

/-- pcccStatusName of pccc/services.go: the high nibble of the status byte
selects the human-readable error category. -/
def pcccStatusName (sts : Nat) : String :=
  match sts &&& 0xF0 with
  | 0x00 => "Success"
  | 0x10 => "Illegal Command or Format"
  | 0x20 => "Host has a Problem"
  | 0x30 => "Remote Node has a Problem"
  | 0x40 => "Hardware Fault"
  | 0x50 => "Address Problem"
  | 0x60 => "Function Not Allowed"
  | 0x70 => "Target Node Problem"
  | 0x80 => "Command Parameter Types Mismatch"
  | 0x90 => "Data Field Error"
  | 0xA0 => "Access Denied"
  | 0xB0 => "No Function Error"
  | 0xC0 => "Data Conversion Error"
  | 0xD0 => "Scanner Suspended Error"
  | 0xE0 => "Not Compatible"
  | 0xF0 => "Extended Status"
  | _ => "Unknown Status 0x" ++ hexByte sts

/-- pcccExtStatusName of pccc/services.go: extended status code names. -/
def pcccExtStatusName (extSts : Nat) : String :=
  match extSts with
  | 0x01 => "Not Allowed"
  | 0x02 => "Privilege Violation"
  | 0x03 => "Not Executed"
  | 0x04 => "Bad IOS Address"
  | 0x05 => "Parameter Out of Range"
  | 0x06 => "Address Field Too Short"
  | 0x07 => "Address Does Not Exist"
  | 0x08 => "Data Field Too Short"
  | 0x09 => "Insufficient Data Field"
  | 0x0C => "File Number Does Not Exist"
  | 0x0F => "Wrong File Type"
  | 0x10 => "Element Out of Range"
  | 0x11 => "Sub-Element Out of Range"
  | 0x12 => "File Access Denied"
  | 0x13 => "Access Denied"
  | _ => "Extended Status 0x" ++ hexByte extSts

/-- PCCCStatusError of pccc/services.go rendered as the Go error string. -/
def PCCCStatusError (sts extSts : Nat) : String :=
  if sts &&& 0xF0 = 0xF0 ∧ extSts ≠ 0 then
    "PCCC error: " ++ pcccStatusName sts ++ " (STS=0x" ++ hexByte sts ++ "), extended: " ++
      pcccExtStatusName extSts ++ " (EXT_STS=0x" ++ hexByte extSts ++ ")"
  else
    "PCCC error: " ++ pcccStatusName sts ++ " (STS=0x" ++ hexByte sts ++ ")"

/-! ### PCCC read response parsing (pccc/command.go, parsePCCCReadResponse) -/

/-- Error cases of parsePCCCReadResponse in pccc/command.go. -/
inductive PCCCRespErr where
  | tooShort (n : Nat)
  | wrongCmd (cmd : Nat)
  | statusErr (sts extSts : Nat)
deriving Repr, DecidableEq

instance {ε α : Type} [DecidableEq ε] [DecidableEq α] : DecidableEq (Except ε α) := by
  intro a b
  cases a <;> cases b
  case error.error e1 e2 =>
    exact if h : e1 = e2 then isTrue (by rw [h]) else isFalse (by intro hc; cases hc; exact h rfl)
  case error.ok e1 a2 => exact isFalse (by intro hc; cases hc)
  case ok.error a1 e2 => exact isFalse (by intro hc; cases hc)
  case ok.ok a1 a2 =>
    exact if h : a1 = a2 then isTrue (by rw [h]) else isFalse (by intro hc; cases hc; exact h rfl)

/-- parsePCCCReadResponse of pccc/command.go: a typed-read reply parses to the
bytes after the 4-byte header when the command byte is CmdTypedReply (0x4F)
and STS is zero; a non-zero STS yields a status error, taking the byte at
offset 4 as extended status when the high nibble of STS is 0xF. -/
def parsePCCCReadResponse (data : List Nat) : Except PCCCRespErr (List Nat) :=
  if data.length < 4 then .error (.tooShort data.length)
  else if byteAt data 0 ≠ CmdTypedReply then .error (.wrongCmd (byteAt data 0))
  else if byteAt data 1 ≠ StsSuccess then
    .error (.statusErr (byteAt data 1)
      (if byteAt data 1 &&& 0xF0 = 0xF0 ∧ 5 ≤ data.length then byteAt data 4 else 0))
  else .ok (data.drop 4)

/-! ### Claim C5: compact-value encoding round-trip -/

/-- C5: for every v in 0..65535, the PCCC compact-value encoding emits exactly
one byte iff v < 255 and otherwise emits 0xFF followed by the 16-bit
little-endian value, and the mirroring decoder recovers v exactly. -/
theorem c5_compact_value_roundtrip (v : Nat) (hv : v < 65536) :
    decodeCompactValue (appendCompactValue [] v) = some (v, []) ∧
    ((appendCompactValue [] v).length = 1 ↔ v < 255) ∧
    (¬ v < 255 → appendCompactValue [] v = [0xFF, v % 256, v / 256 % 256]) := by
  by_cases h : v < 255
  · refine ⟨?_, ?_, ?_⟩
    · simp [appendCompactValue, decodeCompactValue, h]
    · simp [appendCompactValue, h]
    · intro hc; exact absurd h hc
  · refine ⟨?_, ?_, ?_⟩
    · have hdecode : decodeCompactValue [0xFF, v % 256, v / 256 % 256] =
        some (v % 256 + 256 * (v / 256 % 256), []) := by
        simp [decodeCompactValue]
      have hval : v % 256 + 256 * (v / 256 % 256) = v := by omega
      simp only [appendCompactValue, h, if_false, List.nil_append]
      rw [hdecode, hval]
    · simp [appendCompactValue, h]
    · intro _; simp [appendCompactValue, h]

/-- Witness for C5 at concrete inputs 42 and 1000. -/
theorem c5_compact_value_roundtrip_witness :
    decodeCompactValue (appendCompactValue [] 1000) = some (1000, []) ∧
    ((appendCompactValue [] 42).length = 1 ↔ (42 : Nat) < 255) :=
  ⟨(c5_compact_value_roundtrip 1000 (by decide)).1,
   (c5_compact_value_roundtrip 42 (by decide)).2.1⟩

/-! ### Claim C7: typed-read reply parsing and status mapping -/

set_option maxRecDepth 16000 in
/-- C7: for a reply with at least the 4-byte header, parsing succeeds with the
bytes after the header exactly when the command byte is 0x4F and STS is 0;
a non-zero STS yields a structured error whose category name depends only on
the high nibble of STS, the byte at offset 4 is taken as extended status
when that nibble is 0xF, and the reply sts=0xF0 / ext=0x10 names the
category Extended Status with extended code Element Out of Range. -/
theorem c7_read_reply_parse (data : List Nat) (hlen : 4 ≤ data.length) :
    (parsePCCCReadResponse data = .ok (data.drop 4) ↔
      (byteAt data 0 = CmdTypedReply ∧ byteAt data 1 = StsSuccess)) ∧
    (byteAt data 0 = CmdTypedReply → byteAt data 1 ≠ StsSuccess →
      parsePCCCReadResponse data = .error (.statusErr (byteAt data 1)
        (if byteAt data 1 &&& 0xF0 = 0xF0 ∧ 5 ≤ data.length then byteAt data 4 else 0))) ∧
    (∀ s : Nat, s < 256 → pcccStatusName s = pcccStatusName (s &&& 0xF0)) ∧
    (parsePCCCReadResponse [0x4F, 0xF0, 0, 0, 0x10] = .error (.statusErr 0xF0 0x10) ∧
      pcccStatusName 0xF0 = "Extended Status" ∧
      pcccExtStatusName 0x10 = "Element Out of Range") := by
  have hnotlt : ¬ data.length < 4 := by omega
  refine ⟨?_, ?_, ?_, ?_, by decide, by decide⟩
  · constructor
    · intro hok
      by_cases hc : byteAt data 0 = CmdTypedReply
      · by_cases hs : byteAt data 1 = StsSuccess
        · exact ⟨hc, hs⟩
        · simp [parsePCCCReadResponse, hnotlt, hc, hs] at hok
      · simp [parsePCCCReadResponse, hnotlt, hc] at hok
    · rintro ⟨hc, hs⟩
      simp [parsePCCCReadResponse, hnotlt, hc, hs]
  · intro hc hs
    simp [parsePCCCReadResponse, hnotlt, hc, hs]
  · decide
  · decide

/-- Witness for C7 at a concrete successful reply. -/
theorem c7_read_reply_parse_witness :
    parsePCCCReadResponse [0x4F, 0, 1, 0, 0x2A, 0x00] = .ok [0x2A, 0x00] :=
  ((c7_read_reply_parse [0x4F, 0, 1, 0, 0x2A, 0x00] (by decide)).1).mpr (by decide)

/-! ### Address model (unnamed part_004, FileAddress / ParseAddress)

Strings are handled as ASCII character lists; Go's strings.ToUpper and byte
slicing coincide with the character-wise model on the ASCII addresses the
grammar accepts. -/

/-- FileAddress of the address parser source: the parsed form of a textual
SLC500/PLC5/MicroLogix data table address. bitNumber is -1 when the address
has no bit access. -/
structure FileAddress where
  fileType : Nat
  fileNumber : Nat
  element : Nat
  subElement : Nat
  bitNumber : Int
  typeLetter : String
  rawAddress : String
deriving Repr, DecidableEq, Inhabited

/-- ReadSize of the address parser source: number of bytes to request from the
PLC for an address. -/
def ReadSize (a : FileAddress) : Nat :=
  if 0 ≤ a.bitNumber then SubElementSize
  else if IsComplexType a.fileType then
    if 0 < a.subElement then SubElementSize
    else ElementSize a.fileType
  else ElementSize a.fileType

/-- Error cases of ParseAddress and its helpers. -/
inductive AddrErr where
  | emptyAddress
  | missingColon
  | emptyFileSpec
  | invalidFileNumber
  | unknownFileType
  | fileNumberRequired
  | missingElement
  | invalidElement
  | invalidBit
  | bitOutOfRange (bit : Int)
  | unknownSubElement
deriving Repr, DecidableEq

/-- Value of a non-empty all-digit character list, else none. -/
def digitsVal (cs : List Char) : Option Nat :=
  if cs = [] then none
  else if cs.all Char.isDigit then
    some (cs.foldl (fun acc c => acc * 10 + (c.toNat - 48)) 0)
  else none

/-- Go strconv.Atoi on a character list: an optional sign followed by digits.
Overflow of the 64-bit int range is not modelled; the parser only ever wraps
accepted values into 16 bits. -/
def atoi (cs : List Char) : Option Int :=
  match cs with
  | '+' :: rest => (digitsVal rest).map (fun n => (n : Int))
  | '-' :: rest => (digitsVal rest).map (fun n => -(n : Int))
  | _ => (digitsVal cs).map (fun n => (n : Int))

/-- Go strconv.ParseUint(s, 10, 16): digits only, value at most 65535. -/
def parseUint16 (cs : List Char) : Option Nat :=
  match digitsVal cs with
  | none => none
  | some n => if n ≤ 65535 then some n else none

/-- isValidTypePrefix of the address parser source (single letter types). -/
def isValidTypeLetter (s : String) : Bool :=
  s == "O" || s == "I" || s == "S" || s == "B" || s == "T" || s == "C" || s == "R" ||
    s == "N" || s == "F" || s == "A" || s == "L"

/-- lookupFileType of the address parser source: maps a type letter to the
PCCC file type code and the default file number (-1 when none). -/
def lookupFileType (typeLetter : String) : Option (Nat × Int) :=
  if typeLetter == "O" then some (FileTypeOutput, 0)
  else if typeLetter == "I" then some (FileTypeInput, 1)
  else if typeLetter == "S" then some (FileTypeStatus, 2)
  else if typeLetter == "B" then some (FileTypeBinary, -1)
  else if typeLetter == "T" then some (FileTypeTimer, -1)
  else if typeLetter == "C" then some (FileTypeCounter, -1)
  else if typeLetter == "R" then some (FileTypeControl, -1)
  else if typeLetter == "N" then some (FileTypeInteger, -1)
  else if typeLetter == "F" then some (FileTypeFloat, -1)
  else if typeLetter == "A" then some (FileTypeASCII, -1)
  else if typeLetter == "L" then some (FileTypeLong, -1)
  else if typeLetter == "ST" then some (FileTypeString, -1)
  else if typeLetter == "MG" then some (FileTypeMessage, -1)
  else if typeLetter == "PD" then some (FileTypePID, -1)
  else none

/-- parseFileSpec of the address parser source: extracts the (uppercased) type
letters and the optional file number from the part before the colon. -/
def parseFileSpec (spec : List Char) : Except AddrErr (String × Int) :=
  if spec = [] then .error .emptyFileSpec
  else
    let up2 := String.mk ((spec.take 2).map Char.toUpper)
    if 2 ≤ spec.length ∧ (up2 = "ST" ∨ up2 = "MG" ∨ up2 = "PD") then
      let numStr := spec.drop 2
      if numStr = [] then .ok (up2, -1)
      else
        match atoi numStr with
        | none => .error .invalidFileNumber
        | some n => .ok (up2, n)
    else
      let up1 := String.mk ((spec.take 1).map Char.toUpper)
      if ¬ isValidTypeLetter up1 then .error .unknownFileType
      else
        let numStr := spec.drop 1
        if numStr = [] then .ok (up1, -1)
        else
          match atoi numStr with
          | none => .error .invalidFileNumber
          | some n => .ok (up1, n)

/-- parseTimerSubElement of the address parser source. -/
def parseTimerSub (nm : String) (nmChars : List Char) (r : FileAddress) :
    Except AddrErr FileAddress :=
  if nm = "PRE" then .ok { r with subElement := 1 }
  else if nm = "ACC" then .ok { r with subElement := 2 }
  else if nm = "EN" then .ok { r with subElement := 0, bitNumber := 15 }
  else if nm = "TT" then .ok { r with subElement := 0, bitNumber := 14 }
  else if nm = "DN" then .ok { r with subElement := 0, bitNumber := 13 }
  else
    match parseUint16 nmChars with
    | none => .error .unknownSubElement
    | some sub => .ok { r with subElement := sub }

/-- parseCounterSubElement of the address parser source. -/
def parseCounterSub (nm : String) (nmChars : List Char) (r : FileAddress) :
    Except AddrErr FileAddress :=
  if nm = "PRE" then .ok { r with subElement := 1 }
  else if nm = "ACC" then .ok { r with subElement := 2 }
  else if nm = "CU" then .ok { r with subElement := 0, bitNumber := 15 }
  else if nm = "CD" then .ok { r with subElement := 0, bitNumber := 14 }
  else if nm = "DN" then .ok { r with subElement := 0, bitNumber := 13 }
  else if nm = "OV" then .ok { r with subElement := 0, bitNumber := 12 }
  else if nm = "UN" then .ok { r with subElement := 0, bitNumber := 11 }
  else
    match parseUint16 nmChars with
    | none => .error .unknownSubElement
    | some sub => .ok { r with subElement := sub }

/-- parseControlSubElement of the address parser source. -/
def parseControlSub (nm : String) (nmChars : List Char) (r : FileAddress) :
    Except AddrErr FileAddress :=
  if nm = "LEN" then .ok { r with subElement := 1 }
  else if nm = "POS" then .ok { r with subElement := 2 }
  else if nm = "EN" then .ok { r with subElement := 0, bitNumber := 15 }
  else if nm = "EU" then .ok { r with subElement := 0, bitNumber := 14 }
  else if nm = "DN" then .ok { r with subElement := 0, bitNumber := 13 }
  else if nm = "EM" then .ok { r with subElement := 0, bitNumber := 12 }
  else if nm = "ER" then .ok { r with subElement := 0, bitNumber := 11 }
  else if nm = "UL" then .ok { r with subElement := 0, bitNumber := 10 }
  else if nm = "IN" then .ok { r with subElement := 0, bitNumber := 9 }
  else if nm = "FD" then .ok { r with subElement := 0, bitNumber := 8 }
  else
    match parseUint16 nmChars with
    | none => .error .unknownSubElement
    | some sub => .ok { r with subElement := sub }

/-- parseSubElement of the address parser source: resolves a named sub-element
to a sub-element index and optional bit position; non-complex types accept a
numeric sub-element. -/
def parseSubElement (name : List Char) (r : FileAddress) : Except AddrErr FileAddress :=
  let nmChars := name.map Char.toUpper
  let nm := String.mk nmChars
  if r.fileType = FileTypeTimer then parseTimerSub nm nmChars r
  else if r.fileType = FileTypeCounter then parseCounterSub nm nmChars r
  else if r.fileType = FileTypeControl then parseControlSub nm nmChars r
  else
    match parseUint16 nmChars with
    | none => .error .unknownSubElement
    | some sub => .ok { r with subElement := sub }

/-- parseElementAndModifiers of the address parser source:
parses Element, then an optional /Bit or .SubElement modifier. -/
def parseElementAndModifiers (remainder : List Char) (r : FileAddress) :
    Except AddrErr FileAddress :=
  match remainder.findIdx? (· == '/') with
  | some si =>
    let elemStr := remainder.take si
    let bitStr := remainder.drop (si + 1)
    match parseUint16 elemStr with
    | none => .error .invalidElement
    | some elem =>
      match atoi bitStr with
      | none => .error .invalidBit
      | some bit =>
        if bit < 0 ∨ 15 < bit then .error (.bitOutOfRange bit)
        else .ok { r with element := elem, bitNumber := bit }
  | none =>
    match remainder.findIdx? (· == '.') with
    | some di =>
      let elemStr := remainder.take di
      match parseUint16 elemStr with
      | none => .error .invalidElement
      | some elem => parseSubElement (remainder.drop (di + 1)) { r with element := elem }
    | none =>
      match parseUint16 remainder with
      | none => .error .invalidElement
      | some elem => .ok { r with element := elem }

/-- ParseAddress of the address parser source: parses a textual data table
address into a FileAddress. -/
def parseAddress (addr : String) : Except AddrErr FileAddress :=
  let cs := addr.toList
  if cs = [] then .error .emptyAddress
  else
    match cs.findIdx? (· == ':') with
    | none => .error .missingColon
    | some ci =>
      let fileSpec := cs.take ci
      let remainder := cs.drop (ci + 1)
      match parseFileSpec fileSpec with
      | .error e => .error e
      | .ok (tl, fileNum) =>
        match lookupFileType tl with
        | none => .error .unknownFileType
        | some (ft, dfl) =>
          let fn? : Except AddrErr Nat :=
            if 0 ≤ fileNum then .ok (fileNum.toNat % 65536)
            else if dfl < 0 then .error .fileNumberRequired
            else .ok dfl.toNat
          match fn? with
          | .error e => .error e
          | .ok fn =>
            if remainder = [] then .error .missingElement
            else
              parseElementAndModifiers remainder
                { fileType := ft, fileNumber := fn, element := 0, subElement := 0,
                  bitNumber := -1, typeLetter := tl, rawAddress := addr }

/-! ### Claim C3: read size derivation (corrected) -/

/-- Parsed form of the address F8:0.1, a Float element with an explicit
numeric sub-element. -/
def c3CexAddr : FileAddress :=
  { fileType := 0x8A, fileNumber := 8, element := 0, subElement := 1,
    bitNumber := -1, typeLetter := "F", rawAddress := "F8:0.1" }

set_option maxRecDepth 8000 in
/-- Counterexample to C3 as stated: the address F8:0.1 parses successfully
with an explicit sub-element (sub_element = 1 > 0, bit = -1), yet ReadSize
returns ElementSize(Float) = 4 bytes, not 2. -/
theorem c3_read_size_counterexample :
    parseAddress "F8:0.1" = .ok c3CexAddr ∧ 0 < c3CexAddr.subElement ∧
      c3CexAddr.bitNumber < 0 ∧ ReadSize c3CexAddr = 4 := by
  refine ⟨by decide, by decide, by decide, by decide⟩

/-- C3 amended: for every successfully parsed address, ReadSize returns
2 bytes for bit access; for a complex type (Timer/Counter/Control) it returns
2 bytes when an explicit sub-element is addressed and the full 6-byte element
size when sub_element = 0; otherwise (including non-complex addresses with an
explicit numeric sub-element) it returns element_size(file_type). -/
theorem c3_read_size_amended (s : String) (a : FileAddress)
    (h : parseAddress s = .ok a) :
    ReadSize a =
      (if 0 ≤ a.bitNumber then 2
       else if IsComplexType a.fileType then
         (if 0 < a.subElement then 2 else 6)
       else ElementSize a.fileType) := by
  unfold ReadSize SubElementSize
  by_cases h1 : 0 ≤ a.bitNumber
  · simp [h1]
  · by_cases h2 : IsComplexType a.fileType
    · by_cases h3 : 0 < a.subElement
      · simp [h1, h2, h3]
      · simp [h1, h2, h3, elementSize_of_complex a.fileType h2]
    · simp [h1, h2]

/-- Parsed form of the address T4:0, a full Timer element. -/
def c3WitAddr : FileAddress :=
  { fileType := 0x86, fileNumber := 4, element := 0, subElement := 0,
    bitNumber := -1, typeLetter := "T", rawAddress := "T4:0" }

set_option maxRecDepth 8000 in
/-- Witness for the amended C3 at the concrete address T4:0. -/
theorem c3_read_size_amended_witness :
    ReadSize c3WitAddr =
      (if 0 ≤ c3WitAddr.bitNumber then 2
       else if IsComplexType c3WitAddr.fileType then
         (if 0 < c3WitAddr.subElement then 2 else 6)
       else ElementSize c3WitAddr.fileType) :=
  c3_read_size_amended "T4:0" c3WitAddr (by decide)

/-! ### Value decoding (pccc/client.go, decodeValue / decodeComplexElement) -/

/-- Decoded Go value of a PCCC read (the interface value returned by
decodeValue). Floats carry their raw IEEE 754 bits; SLC strings carry their
raw character bytes. -/
inductive GoVal where
  | vnil
  | vbool (b : Bool)
  | vint16 (v : Int)
  | vint32 (v : Int)
  | vfloat32 (bits : Nat)
  | vstr (chars : List Nat)
  | vbytes (bs : List Nat)
  | vmap (m : List (String × GoVal))
deriving Repr

/-- File types decoded as a single 16-bit signed integer
(Integer, Output, Input, Status, Binary, ASCII). -/
def isWordType (fileType : Nat) : Bool :=
  fileType == FileTypeInteger || fileType == FileTypeOutput || fileType == FileTypeInput ||
    fileType == FileTypeStatus || fileType == FileTypeBinary || fileType == FileTypeASCII

/-- decodeComplexElement of pccc/client.go: decodes a full Timer, Counter or
Control element into a map of named sub-fields; PRE/ACC (or LEN/POS) are
emitted only when the buffer holds at least 4 (respectively 6) bytes.
The Go map is modelled as an association list in insertion order. -/
def decodeComplexElement (fileType : Nat) (data : List Nat) : List (String × GoVal) :=
  if data.length < 2 then []
  else
    let cw := le16 data
    let bitOf : Nat → GoVal := fun i => .vbool (((cw >>> i) &&& 1) != 0)
    if fileType = FileTypeTimer then
      [("EN", bitOf 15), ("TT", bitOf 14), ("DN", bitOf 13)] ++
        (if 4 ≤ data.length then [("PRE", .vint16 (int16OfNat (le16 (data.drop 2))))] else []) ++
        (if 6 ≤ data.length then [("ACC", .vint16 (int16OfNat (le16 (data.drop 4))))] else [])
    else if fileType = FileTypeCounter then
      [("CU", bitOf 15), ("CD", bitOf 14), ("DN", bitOf 13), ("OV", bitOf 12),
          ("UN", bitOf 11)] ++
        (if 4 ≤ data.length then [("PRE", .vint16 (int16OfNat (le16 (data.drop 2))))] else []) ++
        (if 6 ≤ data.length then [("ACC", .vint16 (int16OfNat (le16 (data.drop 4))))] else [])
    else if fileType = FileTypeControl then
      [("EN", bitOf 15), ("EU", bitOf 14), ("DN", bitOf 13), ("EM", bitOf 12),
          ("ER", bitOf 11), ("UL", bitOf 10), ("IN", bitOf 9), ("FD", bitOf 8)] ++
        (if 4 ≤ data.length then [("LEN", .vint16 (int16OfNat (le16 (data.drop 2))))] else []) ++
        (if 6 ≤ data.length then [("POS", .vint16 (int16OfNat (le16 (data.drop 4))))] else [])
    else []

/-- Switch on the file type inside decodeValue of pccc/client.go, reached
when the buffer is non-empty and the bit branch did not apply. -/
def decodeSwitch (addr : FileAddress) (data : List Nat) : GoVal :=
  if isWordType addr.fileType then
    if data.length < 2 then .vbytes data
    else .vint16 (int16OfNat (le16 data))
  else if addr.fileType = FileTypeFloat then
    if data.length < 4 then .vbytes data
    else .vfloat32 (le32 data)
  else if addr.fileType = FileTypeLong then
    if data.length < 4 then .vbytes data
    else .vint32 (int32OfNat (le32 data))
  else if IsComplexType addr.fileType then
    if 0 < addr.subElement ∧ 2 ≤ data.length then .vint16 (int16OfNat (le16 data))
    else .vmap (decodeComplexElement addr.fileType data)
  else if addr.fileType = FileTypeString then
    if data.length < 2 then .vbytes data
    else
      let strLen0 := le16 data
      let strLen1 := if data.length - 2 < strLen0 then data.length - 2 else strLen0
      let strLen := if 82 < strLen1 then 82 else strLen1
      .vstr ((data.drop 2).take strLen)
  else .vbytes data

/-- decodeValue of pccc/client.go: converts raw PLC bytes to a Go value based
on the address type. An empty buffer decodes to nil; a bit address with at
least two bytes decodes to the addressed bit; otherwise the file type switch
decides, with short buffers falling back to the raw byte slice. -/
def decodeValue (addr : FileAddress) (data : List Nat) : GoVal :=
  if data = [] then .vnil
  else if 0 ≤ addr.bitNumber ∧ 2 ≤ data.length then
    .vbool (((le16 data >>> addr.bitNumber.toNat) &&& 1) != 0)
  else decodeSwitch addr data

/-- Keys of a decoded complex-element association list. -/
def mapKeys (m : List (String × GoVal)) : List String := m.map Prod.fst

theorem decodeSwitch_ne_vbool (addr : FileAddress) (data : List Nat) (b : Bool) :
    decodeSwitch addr data ≠ .vbool b := by
  unfold decodeSwitch
  split_ifs <;> simp

/-! ### Claim C9: value decoding is total and bounds-checked -/

theorem pre_key_mem (ft : Nat) (data : List Nat) :
    "PRE" ∈ mapKeys (decodeComplexElement ft data) ↔
      ((ft = FileTypeTimer ∨ ft = FileTypeCounter) ∧ 4 ≤ data.length) := by
  unfold decodeComplexElement
  simp only [FileTypeTimer, FileTypeCounter, FileTypeControl]
  by_cases hshort : data.length < 2
  · simp [hshort, mapKeys]; omega
  · by_cases ht : ft = 134
    · by_cases h6 : 6 ≤ data.length
      · have h4 : 4 ≤ data.length := by omega
        simp [hshort, ht, h4, h6, mapKeys]
      · by_cases h4 : 4 ≤ data.length
        · simp [hshort, ht, h4, h6, mapKeys]
        · simp [hshort, ht, h4, h6, mapKeys]
    · by_cases hc : ft = 135
      · by_cases h6 : 6 ≤ data.length
        · have h4 : 4 ≤ data.length := by omega
          simp [hshort, ht, hc, h4, h6, mapKeys]
        · by_cases h4 : 4 ≤ data.length
          · simp [hshort, ht, hc, h4, h6, mapKeys]
          · simp [hshort, ht, hc, h4, h6, mapKeys]
      · by_cases hr : ft = 136
        · by_cases h6 : 6 ≤ data.length
          · have h4 : 4 ≤ data.length := by omega
            simp [hshort, ht, hc, hr, h4, h6, mapKeys]
          · by_cases h4 : 4 ≤ data.length
            · simp [hshort, ht, hc, hr, h4, h6, mapKeys]
            · simp [hshort, ht, hc, hr, h4, h6, mapKeys]
        · simp [hshort, ht, hc, hr, mapKeys]

theorem acc_key_mem (ft : Nat) (data : List Nat) :
    "ACC" ∈ mapKeys (decodeComplexElement ft data) ↔
      ((ft = FileTypeTimer ∨ ft = FileTypeCounter) ∧ 6 ≤ data.length) := by
  unfold decodeComplexElement
  simp only [FileTypeTimer, FileTypeCounter, FileTypeControl]
  by_cases hshort : data.length < 2
  · simp [hshort, mapKeys]; omega
  · by_cases ht : ft = 134
    · by_cases h6 : 6 ≤ data.length
      · have h4 : 4 ≤ data.length := by omega
        simp [hshort, ht, h4, h6, mapKeys]
      · by_cases h4 : 4 ≤ data.length
        · simp [hshort, ht, h4, h6, mapKeys]
        · simp [hshort, ht, h4, h6, mapKeys]
    · by_cases hc : ft = 135
      · by_cases h6 : 6 ≤ data.length
        · have h4 : 4 ≤ data.length := by omega
          simp [hshort, ht, hc, h4, h6, mapKeys]
        · by_cases h4 : 4 ≤ data.length
          · simp [hshort, ht, hc, h4, h6, mapKeys]
          · simp [hshort, ht, hc, h4, h6, mapKeys]
      · by_cases hr : ft = 136
        · by_cases h6 : 6 ≤ data.length
          · have h4 : 4 ≤ data.length := by omega
            simp [hshort, ht, hc, hr, h4, h6, mapKeys]
          · by_cases h4 : 4 ≤ data.length
            · simp [hshort, ht, hc, hr, h4, h6, mapKeys]
            · simp [hshort, ht, hc, hr, h4, h6, mapKeys]
        · simp [hshort, ht, hc, hr, mapKeys]

theorem len_key_mem (ft : Nat) (data : List Nat) :
    "LEN" ∈ mapKeys (decodeComplexElement ft data) ↔
      (ft = FileTypeControl ∧ 4 ≤ data.length) := by
  unfold decodeComplexElement
  simp only [FileTypeTimer, FileTypeCounter, FileTypeControl]
  by_cases hshort : data.length < 2
  · simp [hshort, mapKeys]; omega
  · by_cases ht : ft = 134
    · by_cases h6 : 6 ≤ data.length
      · have h4 : 4 ≤ data.length := by omega
        simp [hshort, ht, h4, h6, mapKeys]
      · by_cases h4 : 4 ≤ data.length
        · simp [hshort, ht, h4, h6, mapKeys]
        · simp [hshort, ht, h4, h6, mapKeys]
    · by_cases hc : ft = 135
      · by_cases h6 : 6 ≤ data.length
        · have h4 : 4 ≤ data.length := by omega
          simp [hshort, ht, hc, h4, h6, mapKeys]
        · by_cases h4 : 4 ≤ data.length
          · simp [hshort, ht, hc, h4, h6, mapKeys]
          · simp [hshort, ht, hc, h4, h6, mapKeys]
      · by_cases hr : ft = 136
        · by_cases h6 : 6 ≤ data.length
          · have h4 : 4 ≤ data.length := by omega
            simp [hshort, ht, hc, hr, h4, h6, mapKeys]
          · by_cases h4 : 4 ≤ data.length
            · simp [hshort, ht, hc, hr, h4, h6, mapKeys]
            · simp [hshort, ht, hc, hr, h4, h6, mapKeys]
        · simp [hshort, ht, hc, hr, mapKeys]

theorem pos_key_mem (ft : Nat) (data : List Nat) :
    "POS" ∈ mapKeys (decodeComplexElement ft data) ↔
      (ft = FileTypeControl ∧ 6 ≤ data.length) := by
  unfold decodeComplexElement
  simp only [FileTypeTimer, FileTypeCounter, FileTypeControl]
  by_cases hshort : data.length < 2
  · simp [hshort, mapKeys]; omega
  · by_cases ht : ft = 134
    · by_cases h6 : 6 ≤ data.length
      · have h4 : 4 ≤ data.length := by omega
        simp [hshort, ht, h4, h6, mapKeys]
      · by_cases h4 : 4 ≤ data.length
        · simp [hshort, ht, h4, h6, mapKeys]
        · simp [hshort, ht, h4, h6, mapKeys]
    · by_cases hc : ft = 135
      · by_cases h6 : 6 ≤ data.length
        · have h4 : 4 ≤ data.length := by omega
          simp [hshort, ht, hc, h4, h6, mapKeys]
        · by_cases h4 : 4 ≤ data.length
          · simp [hshort, ht, hc, h4, h6, mapKeys]
          · simp [hshort, ht, hc, h4, h6, mapKeys]
      · by_cases hr : ft = 136
        · by_cases h6 : 6 ≤ data.length
          · have h4 : 4 ≤ data.length := by omega
            simp [hshort, ht, hc, hr, h4, h6, mapKeys]
          · by_cases h4 : 4 ≤ data.length
            · simp [hshort, ht, hc, hr, h4, h6, mapKeys]
            · simp [hshort, ht, hc, hr, h4, h6, mapKeys]
        · simp [hshort, ht, hc, hr, mapKeys]

/-- C9: value decoding is total over arbitrary buffers and never indexes past
the checked lengths: an empty buffer decodes to nil; a bool result arises
only from bit extraction, which requires at least 2 bytes; a buffer shorter
than the addressed numeric or string width comes back as the raw byte slice;
and complex-element decoding emits the PRE/ACC (or LEN/POS) keys exactly
when the buffer holds at least 4 (respectively 6) bytes. -/
theorem c9_decode_total_bounds (addr : FileAddress) (data : List Nat) :
    (data = [] → decodeValue addr data = .vnil) ∧
    (∀ b : Bool, decodeValue addr data = .vbool b →
      0 ≤ addr.bitNumber ∧ 2 ≤ data.length ∧
        b = (((le16 data >>> addr.bitNumber.toNat) &&& 1) != 0)) ∧
    (¬ (0 ≤ addr.bitNumber ∧ 2 ≤ data.length) → data ≠ [] →
      ((isWordType addr.fileType = true → data.length < 2 →
          decodeValue addr data = .vbytes data) ∧
       ((addr.fileType = FileTypeFloat ∨ addr.fileType = FileTypeLong) → data.length < 4 →
          decodeValue addr data = .vbytes data) ∧
       (addr.fileType = FileTypeString → data.length < 2 →
          decodeValue addr data = .vbytes data))) ∧
    ("PRE" ∈ mapKeys (decodeComplexElement addr.fileType data) ↔
      ((addr.fileType = FileTypeTimer ∨ addr.fileType = FileTypeCounter) ∧ 4 ≤ data.length)) ∧
    ("ACC" ∈ mapKeys (decodeComplexElement addr.fileType data) ↔
      ((addr.fileType = FileTypeTimer ∨ addr.fileType = FileTypeCounter) ∧ 6 ≤ data.length)) ∧
    ("LEN" ∈ mapKeys (decodeComplexElement addr.fileType data) ↔
      (addr.fileType = FileTypeControl ∧ 4 ≤ data.length)) ∧
    ("POS" ∈ mapKeys (decodeComplexElement addr.fileType data) ↔
      (addr.fileType = FileTypeControl ∧ 6 ≤ data.length)) := by
  refine ⟨?_, ?_, ?_, pre_key_mem addr.fileType data, acc_key_mem addr.fileType data,
    len_key_mem addr.fileType data, pos_key_mem addr.fileType data⟩
  · intro h; simp [decodeValue, h]
  · intro b hb
    by_cases hemp : data = []
    · simp [decodeValue, hemp] at hb
    · by_cases hbit : 0 ≤ addr.bitNumber ∧ 2 ≤ data.length
      · refine ⟨hbit.1, hbit.2, ?_⟩
        unfold decodeValue at hb
        rw [if_neg hemp, if_pos hbit] at hb
        injection hb with hb
        exact hb.symm
      · simp only [decodeValue, hemp, if_false, hbit] at hb
        exact absurd hb (decodeSwitch_ne_vbool addr data b)
  · intro hbit hemp
    refine ⟨?_, ?_, ?_⟩
    · intro hw hlen
      simp [decodeValue, hemp, hbit, decodeSwitch, hw, hlen]
    · intro hfl hlen
      rcases hfl with hf | hl
      · simp [decodeValue, hemp, hbit, decodeSwitch, hf, hlen,
          (by decide : isWordType FileTypeFloat = false)]
      · simp [decodeValue, hemp, hbit, decodeSwitch, hl, hlen,
          (by decide : isWordType FileTypeLong = false),
          (by decide : FileTypeLong ≠ FileTypeFloat)]
    · intro hs hlen
      simp [decodeValue, hemp, hbit, decodeSwitch, hs, hlen,
        (by decide : isWordType FileTypeString = false),
        (by decide : FileTypeString ≠ FileTypeFloat),
        (by decide : FileTypeString ≠ FileTypeLong),
        (by decide : IsComplexType FileTypeString = false)]

/-- Parsed form of the address N7:0, used by the decoding witness. -/
def c9WitAddr : FileAddress :=
  { fileType := 0x89, fileNumber := 7, element := 0, subElement := 0,
    bitNumber := -1, typeLetter := "N", rawAddress := "N7:0" }

/-- Witness for C9: an empty buffer decodes to nil at a concrete address. -/
theorem c9_decode_total_bounds_witness :
    decodeValue c9WitAddr [] = GoVal.vnil :=
  (c9_decode_total_bounds c9WitAddr []).1 rfl

/-! ### Bit write (pccc/client.go, Client.writeBit) -/

/-- writeBit of pccc/client.go with the PLC read abstracted as an oracle:
reads the containing word through an address whose bit is cleared to -1,
masks the target bit in or out, and returns the write-back target address
together with the two little-endian bytes written. The Go arithmetic is on
uint16, so the clear mask is the 16-bit complement of the bit. -/
def writeBit (readOracle : FileAddress → Except String (List Nat))
    (addr : FileAddress) (bitVal : Bool) : Except String (FileAddress × List Nat) :=
  let readAddr : FileAddress := { addr with bitNumber := -1 }
  match readOracle readAddr with
  | .error e => .error ("bit write read-back failed: " ++ e)
  | .ok bytes =>
    if bytes.length < 2 then .error "bit write: read returned fewer than 2 bytes"
    else
      let word := le16 bytes
      let w :=
        if bitVal then word ||| (1 <<< addr.bitNumber.toNat)
        else word &&& (0xFFFF ^^^ (1 <<< addr.bitNumber.toNat))
      .ok (readAddr, [w % 256, w / 256 % 256])

/-! ### Claim C6: bit writes are read-modify-write on the containing word -/

/-- C6: a bit write first reads through an address agreeing with the target
on file type, file number, element and sub-element but with bit cleared
to -1, then writes back to that address a 2-byte word w that carries the
target bit equal to the written value and agrees with the word read on
every other one of the 16 bit positions. -/
theorem le16_pair (w : Nat) (h : w < 65536) : le16 [w % 256, w / 256 % 256] = w := by
  unfold le16
  rw [show byteAt [w % 256, w / 256 % 256] 0 = w % 256 from rfl,
    show byteAt [w % 256, w / 256 % 256] 1 = w / 256 % 256 from rfl]
  omega

theorem c6_bit_write_rmw (oracle : FileAddress → Except String (List Nat))
    (addr : FileAddress) (bitVal : Bool) (bytes : List Nat)
    (hbit0 : 0 ≤ addr.bitNumber) (hbit15 : addr.bitNumber ≤ 15)
    (hread : oracle { addr with bitNumber := -1 } = .ok bytes)
    (hlen : 2 ≤ bytes.length)
    (hb0 : byteAt bytes 0 < 256) (hb1 : byteAt bytes 1 < 256) :
    ∃ w : Nat,
      writeBit oracle addr bitVal = .ok ({ addr with bitNumber := -1 }, [w % 256, w / 256 % 256]) ∧
      ({ addr with bitNumber := -1 } : FileAddress).fileType = addr.fileType ∧
      ({ addr with bitNumber := -1 } : FileAddress).fileNumber = addr.fileNumber ∧
      ({ addr with bitNumber := -1 } : FileAddress).element = addr.element ∧
      ({ addr with bitNumber := -1 } : FileAddress).subElement = addr.subElement ∧
      ({ addr with bitNumber := -1 } : FileAddress).bitNumber = -1 ∧
      w < 65536 ∧
      le16 [w % 256, w / 256 % 256] = w ∧
      w.testBit addr.bitNumber.toNat = bitVal ∧
      (∀ i : Nat, i < 16 → i ≠ addr.bitNumber.toNat →
        w.testBit i = (le16 bytes).testBit i) := by
  have hword : le16 bytes < 65536 := by
    unfold le16; omega
  have hnotshort : ¬ bytes.length < 2 := by omega
  have hbitle : addr.bitNumber.toNat ≤ 15 := by omega
  have hshift : (1 : Nat) <<< addr.bitNumber.toNat = 2 ^ addr.bitNumber.toNat := by
    rw [Nat.shiftLeft_eq, one_mul]
  have h16 : (65536 : Nat) = 2 ^ 16 := by norm_num
  have hpowlt : 2 ^ addr.bitNumber.toNat < 65536 := by
    calc 2 ^ addr.bitNumber.toNat ≤ 2 ^ 15 := Nat.pow_le_pow_right (by norm_num) hbitle
    _ < 65536 := by norm_num
  cases bitVal with
  | true =>
    have hlt : le16 bytes ||| 2 ^ addr.bitNumber.toNat < 65536 := by
      rw [h16] at hword hpowlt ⊢
      exact Nat.or_lt_two_pow hword hpowlt
    refine ⟨le16 bytes ||| 2 ^ addr.bitNumber.toNat, ?_, rfl, rfl, rfl, rfl, rfl, hlt,
      le16_pair _ hlt, ?_, ?_⟩
    · simp [writeBit, hread, hnotshort, hshift]
    · rw [Nat.testBit_lor, Nat.testBit_two_pow_self, Bool.or_true]
    · intro i _ hne
      rw [Nat.testBit_lor, Nat.testBit_two_pow_of_ne (fun h => hne h.symm), Bool.or_false]
  | false =>
    have hlt : le16 bytes &&& (0xFFFF ^^^ 2 ^ addr.bitNumber.toNat) < 65536 := by
      rw [h16]
      refine Nat.and_lt_two_pow _ ?_
      rw [← h16]
      have hm : (0xFFFF : Nat) < 65536 := by norm_num
      rw [h16] at hm hpowlt ⊢
      exact Nat.xor_lt_two_pow hm hpowlt
    refine ⟨le16 bytes &&& (0xFFFF ^^^ 2 ^ addr.bitNumber.toNat), ?_, rfl, rfl, rfl, rfl, rfl,
      hlt, le16_pair _ hlt, ?_, ?_⟩
    · simp [writeBit, hread, hnotshort, hshift]
    · have hmask : (0xFFFF : Nat) = 2 ^ 16 - 1 := by norm_num
      rw [Nat.testBit_land, Nat.testBit_xor, hmask, Nat.testBit_two_pow_sub_one,
        Nat.testBit_two_pow_self]
      have : addr.bitNumber.toNat < 16 := by omega
      simp [this]
    · intro i hi hne
      have hmask : (0xFFFF : Nat) = 2 ^ 16 - 1 := by norm_num
      rw [Nat.testBit_land, Nat.testBit_xor, hmask, Nat.testBit_two_pow_sub_one,
        Nat.testBit_two_pow_of_ne (fun h => hne h.symm)]
      simp [hi]

/-- Parsed form of the address B3:0/5, the bit-write witness target. -/
def c6WitAddr : FileAddress :=
  { fileType := 0x85, fileNumber := 3, element := 0, subElement := 0,
    bitNumber := 5, typeLetter := "B", rawAddress := "B3:0/5" }

/-- Witness for C6: writing bit 5 of B3:0 given a read-back of 0x0000. -/
theorem c6_bit_write_rmw_witness :
    ∃ w : Nat,
      writeBit (fun _ => .ok [0, 0]) c6WitAddr true =
        .ok ({ c6WitAddr with bitNumber := -1 }, [w % 256, w / 256 % 256]) ∧
      ({ c6WitAddr with bitNumber := -1 } : FileAddress).fileType = c6WitAddr.fileType ∧
      ({ c6WitAddr with bitNumber := -1 } : FileAddress).fileNumber = c6WitAddr.fileNumber ∧
      ({ c6WitAddr with bitNumber := -1 } : FileAddress).element = c6WitAddr.element ∧
      ({ c6WitAddr with bitNumber := -1 } : FileAddress).subElement = c6WitAddr.subElement ∧
      ({ c6WitAddr with bitNumber := -1 } : FileAddress).bitNumber = -1 ∧
      w < 65536 ∧
      le16 [w % 256, w / 256 % 256] = w ∧
      w.testBit c6WitAddr.bitNumber.toNat = true ∧
      (∀ i : Nat, i < 16 → i ≠ c6WitAddr.bitNumber.toNat →
        w.testBit i = (le16 [0, 0]).testBit i) :=
  c6_bit_write_rmw (fun _ => .ok [0, 0]) c6WitAddr true [0, 0]
    (by decide) (by decide) rfl (by decide) (by decide) (by decide)

/-! ### File directory discovery (pccc/discovery.go) -/

/-- FileTypeName of pccc/types.go. -/
def FileTypeName : Nat → String
  | 0x82 => "Output"
  | 0x83 => "Input"
  | 0x84 => "Status"
  | 0x85 => "Binary"
  | 0x86 => "Timer"
  | 0x87 => "Counter"
  | 0x88 => "Control"
  | 0x89 => "Integer"
  | 0x8A => "Float"
  | 0x8D => "String"
  | 0x8E => "ASCII"
  | 0x91 => "Long"
  | 0x92 => "Message"
  | 0x93 => "PID"
  | _ => "Unknown"

/-- FileTypePrefix of pccc/types.go: the address letter for a file type. -/
def fileTypeLetterOf : Nat → String
  | 0x82 => "O"
  | 0x83 => "I"
  | 0x84 => "S"
  | 0x85 => "B"
  | 0x86 => "T"
  | 0x87 => "C"
  | 0x88 => "R"
  | 0x89 => "N"
  | 0x8A => "F"
  | 0x8D => "ST"
  | 0x8E => "A"
  | 0x91 => "L"
  | 0x92 => "MG"
  | 0x93 => "PD"
  | _ => ""

/-- FileTypePlaceholder of pccc/discovery.go: marks a deleted or unused slot
in the file directory. -/
def FileTypePlaceholder : Nat := 0x81

/-- Sys0Info of pccc/discovery.go: the per-family binary layout of the file
directory. fileType and sizeElement are byte offsets within a row. -/
structure Sys0Info where
  fileType : Nat
  sizeElement : Nat
  filePosition : Nat
  rowSize : Nat
  sizeConst : Nat
deriving Repr, DecidableEq

/-- FileDirectoryEntry of pccc/discovery.go (the TypePrefix field is named
prefixStr here). -/
structure FileDirectoryEntry where
  fileNumber : Nat
  fileType : Nat
  fileTypeName : String
  prefixStr : String
  elementCount : Nat
deriving Repr, DecidableEq

/-- extractCatalog of pccc/discovery.go: cut at the first null byte, then trim
trailing spaces. -/
def extractCatalog (raw : List Char) : String :=
  let upto := raw.takeWhile (fun c => c ≠ Char.ofNat 0)
  String.mk (upto.reverse.dropWhile (fun c => c = ' ')).reverse

/-- extractCatalogPrefix of pccc/discovery.go: the first four characters of
the catalog string identify the processor family. -/
def extractCatalogPfx (catalog : String) : String :=
  if catalog.length < 4 then catalog else String.mk (catalog.toList.take 4)

/-- lookupSys0Info of pccc/discovery.go: the file directory layout for each
recognized catalog prefix; unknown prefixes are an error. -/
def lookupSys0Info (pfx : String) : Option Sys0Info :=
  if pfx = "1747" then
    some { fileType := 0x01, sizeElement := 0x23, filePosition := 79, rowSize := 10, sizeConst := 0 }
  else if pfx = "1761" then
    some { fileType := 0x00, sizeElement := 0x23, filePosition := 93, rowSize := 8, sizeConst := 0 }
  else if pfx = "1762" ∨ pfx = "1763" ∨ pfx = "1764" then
    some { fileType := 0x02, sizeElement := 0x28, filePosition := 233, rowSize := 10,
           sizeConst := 19968 }
  else if pfx = "1766" then
    some { fileType := 0x03, sizeElement := 0x2b, filePosition := 233, rowSize := 10,
           sizeConst := 19968 }
  else none

/-- Element count read from a directory row, combining the two element-count
blocks of parseFileDirectory in pccc/discovery.go. Writing s for the
sizeElement offset and L for the row length, the first Go block reads row[s]
when s < L but indexes out of bounds (panics) when s = L; the second block
overwrites with the 16-bit little-endian value when s+1 < L, or with row[s]
when s < L. The net effect: 16-bit LE when s+1 < L, single byte when
s+1 = L, a panic (modelled as none) when s = L, and the untouched initial 0
when s > L. -/
def rowElemCount (row : List Nat) (s : Nat) : Option Nat :=
  if s + 1 < row.length then some (byteAt row s + 256 * byteAt row (s + 1))
  else if s < row.length then some (byteAt row s)
  else if s = row.length then none
  else some 0

/-- Row walk of parseFileDirectory in pccc/discovery.go, with structural fuel
(one unit per consumed row; the caller passes enough for the whole buffer).
A row is skipped, with the file-number counter still advancing, when the
file-type offset is out of row bounds or the file-type byte is the 0x81
placeholder or zero. -/
def walkRows (sys0 : Sys0Info) : Nat → Nat → List Nat → Option (List FileDirectoryEntry)
  | 0, _, _ => none
  | fuel + 1, fileNumber, rest =>
    if sys0.rowSize ≤ rest.length then
      let row := rest.take sys0.rowSize
      let next := rest.drop sys0.rowSize
      if sys0.fileType ≥ row.length then
        walkRows sys0 fuel (fileNumber + 1) next
      else
        let ft := byteAt row sys0.fileType
        if ft = FileTypePlaceholder ∨ ft = 0 then
          walkRows sys0 fuel (fileNumber + 1) next
        else
          match rowElemCount row sys0.sizeElement with
          | none => none
          | some ec =>
            match walkRows sys0 fuel (fileNumber + 1) next with
            | none => none
            | some entries =>
              some ({ fileNumber := fileNumber, fileType := ft,
                      fileTypeName := FileTypeName ft, prefixStr := fileTypeLetterOf ft,
                      elementCount := ec } :: entries)
    else some []

/-- parseFileDirectory of pccc/discovery.go: walks rows of rowSize bytes.
The Go loop never terminates when rowSize is 0 and panics on the layouts
whose element-count read indexes exactly one byte past the row; both are
modelled as none. -/
def parseFileDirectory (data : List Nat) (sys0 : Sys0Info) :
    Option (List FileDirectoryEntry) :=
  if sys0.rowSize = 0 then none
  else walkRows sys0 (data.length + 1) 0 data

/-- Directory row at index j of the raw directory buffer. -/
def dirRow (data : List Nat) (sys0 : Sys0Info) (j : Nat) : List Nat :=
  (data.drop (j * sys0.rowSize)).take sys0.rowSize

theorem walkRows_spec (sys0 : Sys0Info) :
    ∀ (fuel fn : Nat) (rest : List Nat) (es : List FileDirectoryEntry),
      walkRows sys0 fuel fn rest = some es →
      ∀ e ∈ es,
        fn ≤ e.fileNumber ∧
        (e.fileNumber - fn) * sys0.rowSize + sys0.rowSize ≤ rest.length ∧
        sys0.fileType < sys0.rowSize ∧
        e.fileType =
          byteAt ((rest.drop ((e.fileNumber - fn) * sys0.rowSize)).take sys0.rowSize)
            sys0.fileType ∧
        e.fileType ≠ FileTypePlaceholder ∧ e.fileType ≠ 0 ∧
        rowElemCount ((rest.drop ((e.fileNumber - fn) * sys0.rowSize)).take sys0.rowSize)
          sys0.sizeElement = some e.elementCount ∧
        e.fileTypeName = FileTypeName e.fileType ∧
        e.prefixStr = fileTypeLetterOf e.fileType := by
  intro fuel
  induction fuel with
  | zero => intro fn rest es h; simp [walkRows] at h
  | succ fuel ih =>
    intro fn rest es h e he
    rw [walkRows] at h
    by_cases hlen : sys0.rowSize ≤ rest.length
    · rw [if_pos hlen] at h
      have hrowlen : (rest.take sys0.rowSize).length = sys0.rowSize := by
        rw [List.length_take]; omega
      have hstep : ∀ es2, walkRows sys0 fuel (fn + 1) (rest.drop sys0.rowSize) = some es2 →
          e ∈ es2 →
          fn ≤ e.fileNumber ∧
          (e.fileNumber - fn) * sys0.rowSize + sys0.rowSize ≤ rest.length ∧
          sys0.fileType < sys0.rowSize ∧
          e.fileType =
            byteAt ((rest.drop ((e.fileNumber - fn) * sys0.rowSize)).take sys0.rowSize)
              sys0.fileType ∧
          e.fileType ≠ FileTypePlaceholder ∧ e.fileType ≠ 0 ∧
          rowElemCount ((rest.drop ((e.fileNumber - fn) * sys0.rowSize)).take sys0.rowSize)
            sys0.sizeElement = some e.elementCount ∧
          e.fileTypeName = FileTypeName e.fileType ∧
          e.prefixStr = fileTypeLetterOf e.fileType := by
        intro es2 h2 he2
        obtain ⟨ha, hb, hc, hd, hne1, hne2, hec, hnm, hpf⟩ := ih (fn + 1) _ es2 h2 e he2
        have hge : fn + 1 ≤ e.fileNumber := ha
        have hdroplen : (rest.drop sys0.rowSize).length = rest.length - sys0.rowSize := by
          rw [List.length_drop]
        have harith : (e.fileNumber - (fn + 1)) * sys0.rowSize + sys0.rowSize =
            (e.fileNumber - fn) * sys0.rowSize := by
          have h1 : e.fileNumber - fn = (e.fileNumber - (fn + 1)) + 1 := by omega
          rw [h1, Nat.add_mul, one_mul]
        have hdrop : (rest.drop sys0.rowSize).drop ((e.fileNumber - (fn + 1)) * sys0.rowSize) =
            rest.drop ((e.fileNumber - fn) * sys0.rowSize) := by
          rw [List.drop_drop]
          congr 1
          omega
        refine ⟨by omega, by omega, hc, ?_, hne1, hne2, ?_, hnm, hpf⟩
        · rw [← hdrop]; exact hd
        · rw [← hdrop]; exact hec
      by_cases hft : sys0.fileType ≥ (rest.take sys0.rowSize).length
      · rw [if_pos hft] at h
        exact hstep es h he
      · rw [if_neg hft] at h
        by_cases hskip : byteAt (rest.take sys0.rowSize) sys0.fileType = FileTypePlaceholder ∨
            byteAt (rest.take sys0.rowSize) sys0.fileType = 0
        · rw [if_pos hskip] at h
          exact hstep es h he
        · rw [if_neg hskip] at h
          cases hec : rowElemCount (rest.take sys0.rowSize) sys0.sizeElement with
          | none => rw [hec] at h; cases h
          | some ec =>
            rw [hec] at h
            cases hrec : walkRows sys0 fuel (fn + 1) (rest.drop sys0.rowSize) with
            | none => rw [hrec] at h; cases h
            | some entries =>
              rw [hrec] at h
              injection h with h
              subst h
              cases he with
              | head =>
                refine ⟨le_refl fn, ?_, by omega, ?_, ?_, ?_, ?_, rfl, rfl⟩
                · simp only [Nat.sub_self, Nat.zero_mul]; omega
                · simp
                · intro hcontra; exact hskip (Or.inl hcontra)
                · intro hcontra; exact hskip (Or.inr hcontra)
                · simpa using hec
              | tail _ htail =>
                exact hstep entries hrec htail
    · rw [if_neg hlen] at h
      injection h with h
      subst h
      cases he

theorem walkRows_skip (sys0 : Sys0Info) (fuel fn : Nat) (rest : List Nat)
    (es : List FileDirectoryEntry) (h : walkRows sys0 fuel fn rest = some es)
    (j : Nat)
    (hcond : sys0.fileType ≥ sys0.rowSize ∨
      byteAt ((rest.drop ((j - fn) * sys0.rowSize)).take sys0.rowSize) sys0.fileType =
        FileTypePlaceholder ∨
      byteAt ((rest.drop ((j - fn) * sys0.rowSize)).take sys0.rowSize) sys0.fileType = 0) :
    ∀ e ∈ es, e.fileNumber ≠ j := by
  intro e he hej
  obtain ⟨_, _, hlt, hft, hne1, hne2, _, _, _⟩ := walkRows_spec sys0 fuel fn rest es h e he
  rw [hej] at hft
  rcases hcond with hcase | hcase | hcase
  · omega
  · exact hne1 (hft.trans hcase)
  · exact hne2 (hft.trans hcase)

theorem byteAt_drop (l : List Nat) (n i : Nat) : byteAt (l.drop n) i = byteAt l (n + i) := by
  unfold byteAt
  rw [List.getD_eq_getElem?_getD, List.getD_eq_getElem?_getD, List.getElem?_drop]

/-! ### Claim C2: directory element count and the 1747 layout -/

/-- C2: for every emitted directory entry, the element count is the 16-bit
little-endian value at the layout's SizeElement offset of the entry's row
when two bytes are available there, and the single byte at that offset when
exactly one byte is available; and the catalog string 1747-L552 yields the
prefix 1747, whose Sys0 layout is FileType offset 1, SizeElement offset 35,
FilePosition 79, RowSize 10. -/
theorem c2_directory_element_count (data : List Nat) (sys0 : Sys0Info)
    (es : List FileDirectoryEntry) (hparse : parseFileDirectory data sys0 = some es) :
    (∀ e ∈ es,
      (sys0.sizeElement + 2 ≤ sys0.rowSize →
        e.elementCount = le16 ((dirRow data sys0 e.fileNumber).drop sys0.sizeElement)) ∧
      (sys0.sizeElement + 1 = sys0.rowSize →
        e.elementCount = byteAt (dirRow data sys0 e.fileNumber) sys0.sizeElement)) ∧
    lookupSys0Info (extractCatalogPfx "1747-L552") =
      some { fileType := 1, sizeElement := 35, filePosition := 79, rowSize := 10,
             sizeConst := 0 } := by
  unfold parseFileDirectory at hparse
  by_cases hrs : sys0.rowSize = 0
  · rw [if_pos hrs] at hparse; cases hparse
  · rw [if_neg hrs] at hparse
    refine ⟨?_, by decide⟩
    intro e he
    obtain ⟨-, hbound, -, -, -, -, hec, -, -⟩ :=
      walkRows_spec sys0 (data.length + 1) 0 data es hparse e he
    rw [Nat.sub_zero] at hbound hec
    have hrow : (data.drop (e.fileNumber * sys0.rowSize)).take sys0.rowSize =
        dirRow data sys0 e.fileNumber := rfl
    rw [hrow] at hec
    have hrowlen : (dirRow data sys0 e.fileNumber).length = sys0.rowSize := by
      unfold dirRow
      rw [List.length_take, List.length_drop]
      omega
    constructor
    · intro h2
      have hlt : sys0.sizeElement + 1 < (dirRow data sys0 e.fileNumber).length := by omega
      unfold rowElemCount at hec
      rw [if_pos hlt] at hec
      injection hec with hec
      rw [le16, byteAt_drop, byteAt_drop, Nat.add_zero]
      exact hec.symm
    · intro h1
      have hnlt : ¬ sys0.sizeElement + 1 < (dirRow data sys0 e.fileNumber).length := by omega
      have hlt : sys0.sizeElement < (dirRow data sys0 e.fileNumber).length := by omega
      unfold rowElemCount at hec
      rw [if_neg hnlt, if_pos hlt] at hec
      injection hec with hec
      exact hec.symm

/-- Two-byte-per-row directory layout used by the concrete discovery
witnesses: file type byte at offset 0, element count byte at offset 1. -/
def dirWitSys0 : Sys0Info :=
  { fileType := 0, sizeElement := 1, filePosition := 0, rowSize := 2, sizeConst := 0 }

/-- Concrete directory buffer with an Integer row, a placeholder row and a
Float row. -/
def dirWitData : List Nat := [0x89, 5, 0x81, 7, 0x8A, 3]

/-- Entries emitted for dirWitData: file numbers 0 and 2, preserving the gap
left by the placeholder row 1. -/
def dirWitEntries : List FileDirectoryEntry :=
  [{ fileNumber := 0, fileType := 0x89, fileTypeName := "Integer", prefixStr := "N",
     elementCount := 5 },
   { fileNumber := 2, fileType := 0x8A, fileTypeName := "Float", prefixStr := "F",
     elementCount := 3 }]

/-- First entry emitted for dirWitData. -/
def dirWitE0 : FileDirectoryEntry :=
  { fileNumber := 0, fileType := 0x89, fileTypeName := "Integer", prefixStr := "N",
    elementCount := 5 }

/-- Witness for C2: on the concrete buffer the first entry's element count is
the single byte at the SizeElement offset of its own row. -/
theorem c2_directory_element_count_witness :
    dirWitE0.elementCount =
      byteAt (dirRow dirWitData dirWitSys0 dirWitE0.fileNumber) dirWitSys0.sizeElement :=
  ((c2_directory_element_count dirWitData dirWitSys0 dirWitEntries (by decide)).1
    dirWitE0 (by decide)).2 (by decide)

/-! ### Claim C8: directory walk preserves file numbering across skipped rows -/

/-- C8: every emitted entry's file number is the index of its own row in the
directory buffer (so its file type byte is read from exactly that row and is
neither the 0x81 placeholder nor zero), and a row whose file-type byte is
0x81 or 0x00 yields no entry while later rows keep their absolute index, so
gaps left by skipped rows are preserved. -/
theorem c8_directory_numbering (data : List Nat) (sys0 : Sys0Info)
    (es : List FileDirectoryEntry) (hparse : parseFileDirectory data sys0 = some es) :
    (∀ e ∈ es,
      e.fileNumber * sys0.rowSize + sys0.rowSize ≤ data.length ∧
      e.fileType = byteAt (dirRow data sys0 e.fileNumber) sys0.fileType ∧
      e.fileType ≠ FileTypePlaceholder ∧ e.fileType ≠ 0) ∧
    (∀ j : Nat,
      (byteAt (dirRow data sys0 j) sys0.fileType = FileTypePlaceholder ∨
        byteAt (dirRow data sys0 j) sys0.fileType = 0) →
      ∀ e ∈ es, e.fileNumber ≠ j) := by
  unfold parseFileDirectory at hparse
  by_cases hrs : sys0.rowSize = 0
  · rw [if_pos hrs] at hparse; cases hparse
  · rw [if_neg hrs] at hparse
    constructor
    · intro e he
      obtain ⟨-, hbound, -, hft, hne1, hne2, -, -, -⟩ :=
        walkRows_spec sys0 (data.length + 1) 0 data es hparse e he
      rw [Nat.sub_zero] at hbound hft
      exact ⟨hbound, hft, hne1, hne2⟩
    · intro j hcond
      refine walkRows_skip sys0 (data.length + 1) 0 data es hparse j ?_
      rw [Nat.sub_zero]
      exact Or.inr hcond

/-- Witness for C8: on the concrete buffer the placeholder row 1 yields no
entry numbered 1; in particular the first emitted entry is not numbered 1. -/
theorem c8_directory_numbering_witness : dirWitE0.fileNumber ≠ 1 :=
  (c8_directory_numbering dirWitData dirWitSys0 dirWitEntries (by decide)).2 1
    (Or.inl (by decide)) dirWitE0 (by decide)

/-! ### Batch planner (driver/pccc.go) -/

/-- maxPCCCReadBytes of driver/pccc.go: maximum data payload of one PCCC
typed read. -/
def maxPCCCReadBytes : Nat := 236

/-- Byte count requested by ReadAddressN (unnamed part_003) for a bulk read
of count contiguous elements. -/
def readAddressNBytes (fileType count : Nat) : Nat := count * ElementSize fileType

/-- Loop body of pcccContiguousRuns in driver/pccc.go: p is the previously
visited index (Go reads it back as sortedIndices[i-1]) and current the run
being grown. -/
def runsAux (elemOf : Nat → Nat) : List Nat → Nat → List Nat → List (List Nat)
  | [], _, current => [current]
  | x :: xs, p, current =>
    if elemOf x = elemOf p + 1 then runsAux elemOf xs x (current ++ [x])
    else current :: runsAux elemOf xs x [x]

/-- pcccContiguousRuns of driver/pccc.go: splits a sorted index slice into
runs of consecutive element numbers. -/
def pcccContiguousRuns (sortedIndices : List Nat) (elemOf : Nat → Nat) :
    List (List Nat) :=
  match sortedIndices with
  | [] => []
  | x :: xs => runsAux elemOf xs x [x]

/-- Chunking loop of PCCCAdapter.Read, with structural fuel (one unit per
chunk; the caller passes the list length, enough because every chunk
consumes at least one element when n is positive; the Go loop would not
terminate for a step of 0, which cannot happen since the element size is
positive). -/
def chunksOfAux (n : Nat) : Nat → List Nat → List (List Nat)
  | 0, _ => []
  | fuel + 1, l =>
    if l.length = 0 then []
    else if n = 0 then []
    else l.take n :: chunksOfAux n fuel (l.drop n)

/-- Successive slices of at most n elements, the chunks run[k*n .. (k+1)*n)
of PCCCAdapter.Read. -/
def chunksOf (n : Nat) (l : List Nat) : List (List Nat) := chunksOfAux n l.length l

/-- Bulk reads issued for one (file number, file type) group of
PCCCAdapter.Read: runs of length at least 2 are cut into chunks of at most
maxPCCCReadBytes / elementSize indices, and chunks that degenerate to fewer
than 2 indices are skipped (left for the individual-read fallback). -/
def plannedChunks (sortedIndices : List Nat) (elemOf : Nat → Nat) (fileType : Nat) :
    List (List Nat) :=
  ((pcccContiguousRuns sortedIndices elemOf).filter (fun r => 2 ≤ r.length)).flatMap
    (fun run => (chunksOf (maxPCCCReadBytes / ElementSize fileType) run).filter
      (fun c => 2 ≤ c.length))

theorem chunksOfAux_length_le (n : Nat) :
    ∀ (fuel : Nat) (l : List Nat), ∀ c ∈ chunksOfAux n fuel l, c.length ≤ n := by
  intro fuel
  induction fuel with
  | zero => intro l c hc; simp [chunksOfAux] at hc
  | succ fuel ih =>
    intro l c hc
    rw [chunksOfAux] at hc
    by_cases hnil : l.length = 0
    · rw [if_pos hnil] at hc; cases hc
    · rw [if_neg hnil] at hc
      by_cases hn : n = 0
      · rw [if_pos hn] at hc; cases hc
      · rw [if_neg hn] at hc
        cases hc with
        | head => simp [List.length_take]
        | tail _ htail => exact ih _ c htail

theorem chunksOfAux_chain (R : Nat → Nat → Prop) (n : Nat) :
    ∀ (fuel : Nat) (l : List Nat), List.Chain' R l →
      ∀ c ∈ chunksOfAux n fuel l, List.Chain' R c := by
  intro fuel
  induction fuel with
  | zero => intro l _ c hc; simp [chunksOfAux] at hc
  | succ fuel ih =>
    intro l hl c hc
    rw [chunksOfAux] at hc
    by_cases hnil : l.length = 0
    · rw [if_pos hnil] at hc; cases hc
    · rw [if_neg hnil] at hc
      by_cases hn : n = 0
      · rw [if_pos hn] at hc; cases hc
      · rw [if_neg hn] at hc
        cases hc with
        | head => exact hl.take n
        | tail _ htail => exact ih _ (hl.drop n) c htail

theorem runsAux_chain (elemOf : Nat → Nat) :
    ∀ (xs : List Nat) (p : Nat) (current : List Nat),
      List.Chain' (fun a b => elemOf b = elemOf a + 1) current →
      current.getLast? = some p →
      ∀ r ∈ runsAux elemOf xs p current,
        List.Chain' (fun a b => elemOf b = elemOf a + 1) r := by
  intro xs
  induction xs with
  | nil =>
    intro p current hchain _ r hr
    rw [runsAux] at hr
    cases hr with
    | head => exact hchain
    | tail _ htail => cases htail
  | cons x xs ih =>
    intro p current hchain hlast r hr
    rw [runsAux] at hr
    by_cases hconsec : elemOf x = elemOf p + 1
    · rw [if_pos hconsec] at hr
      refine ih x (current ++ [x]) ?_ (List.getLast?_concat current) r hr
      rw [List.chain'_append]
      refine ⟨hchain, List.chain'_singleton x, ?_⟩
      intro y hy z hz
      rw [hlast] at hy
      simp only [Option.mem_def, Option.some.injEq] at hy
      simp only [List.head?_cons, Option.mem_def, Option.some.injEq] at hz
      subst hy; subst hz
      exact hconsec
    · rw [if_neg hconsec] at hr
      cases hr with
      | head => exact hchain
      | tail _ htail =>
        exact ih x [x] (List.chain'_singleton x) rfl r htail

theorem pcccContiguousRuns_chain (sortedIndices : List Nat) (elemOf : Nat → Nat) :
    ∀ r ∈ pcccContiguousRuns sortedIndices elemOf,
      List.Chain' (fun a b => elemOf b = elemOf a + 1) r := by
  cases sortedIndices with
  | nil => intro r hr; simp [pcccContiguousRuns] at hr
  | cons x xs =>
    intro r hr
    exact runsAux_chain elemOf xs x [x] (List.chain'_singleton x) rfl r hr

/-! ### Claim C4: bulk reads respect the 236-byte cap and run structure -/

/-- C4: every bulk chunk the planner issues covers at least 2 request indices
whose element numbers are consecutive, the bulk read requests
byte_count = chunk_length * element_size(file_type), and this product never
exceeds the 236-byte cap; a chunk that degenerates to a single element is
not issued as a bulk read. -/
theorem c4_bulk_chunk_bounds (sortedIndices : List Nat) (elemOf : Nat → Nat)
    (fileType : Nat) (chunk : List Nat)
    (hmem : chunk ∈ plannedChunks sortedIndices elemOf fileType) :
    2 ≤ chunk.length ∧
    readAddressNBytes fileType chunk.length = chunk.length * ElementSize fileType ∧
    chunk.length * ElementSize fileType ≤ maxPCCCReadBytes ∧
    List.Chain' (fun a b => elemOf b = elemOf a + 1) chunk := by
  unfold plannedChunks at hmem
  rw [List.mem_flatMap] at hmem
  obtain ⟨run, hrun, hchunk⟩ := hmem
  rw [List.mem_filter] at hrun hchunk
  obtain ⟨hrunmem, -⟩ := hrun
  obtain ⟨hchunkmem, hlen2⟩ := hchunk
  have hlen : 2 ≤ chunk.length := by simpa using hlen2
  refine ⟨hlen, rfl, ?_, ?_⟩
  · have hle : chunk.length ≤ maxPCCCReadBytes / ElementSize fileType :=
      chunksOfAux_length_le _ _ _ chunk hchunkmem
    calc chunk.length * ElementSize fileType
        ≤ (maxPCCCReadBytes / ElementSize fileType) * ElementSize fileType :=
          Nat.mul_le_mul_right _ hle
      _ ≤ maxPCCCReadBytes := Nat.div_mul_le_self _ _
  · have hchain := pcccContiguousRuns_chain sortedIndices elemOf run hrunmem
    exact chunksOfAux_chain _ _ _ run hchain chunk hchunkmem

/-- Witness for C4: the plan for elements 0,1,2 of an Integer file is the
single bulk chunk over all three indices. -/
theorem c4_bulk_chunk_bounds_witness :
    2 ≤ ([0, 1, 2] : List Nat).length ∧
    readAddressNBytes 0x89 ([0, 1, 2] : List Nat).length =
      ([0, 1, 2] : List Nat).length * ElementSize 0x89 ∧
    ([0, 1, 2] : List Nat).length * ElementSize 0x89 ≤ maxPCCCReadBytes ∧
    List.Chain' (fun a b => (fun i => i) b = (fun i => i) a + 1) ([0, 1, 2] : List Nat) :=
  c4_bulk_chunk_bounds [0, 1, 2] (fun i => i) 0x89 [0, 1, 2] (by decide)

/-! ### Client and adapter read orchestration (pccc/client.go Client.Read,
driver/pccc.go PCCCAdapter.Read)

The PLC network is abstracted as an oracle: `single` is the byte result of
PLC.ReadAddress and `bulk` the byte result of PLC.ReadAddressN (unnamed
part_003); both may fail with a transport or PCCC status error rendered as
a string. Every oracle call is recorded as a NetOp protocol round-trip. -/

/-- One protocol round-trip issued by the read path. -/
inductive NetOp where
  | singleRead (addr : FileAddress)
  | bulkRead (addr : FileAddress) (count : Nat)
deriving Repr, DecidableEq

/-- Oracle for the PLC side of ReadAddress / ReadAddressN. -/
structure PCCCNet where
  single : FileAddress → Except String (List Nat)
  bulk : FileAddress → Nat → Except String (List Nat)

/-- Per-tag error of Client.Read in pccc/client.go. -/
inductive CErr where
  | invalidAddress (e : AddrErr)
  | readFailed (msg : String)
deriving Repr, DecidableEq

/-- TagValue of pccc/client.go. -/
structure CTag where
  name : String
  fileType : Nat
  value : GoVal
  bytes : List Nat
  error : Option CErr
deriving Repr

/-- One loop iteration of Client.Read in pccc/client.go: parse the address,
read it, decode the bytes; parse and read failures become per-tag errors.
The second component lists the protocol round-trips performed. -/
def clientReadOne (net : PCCCNet) (addrStr : String) : CTag × List NetOp :=
  match parseAddress addrStr with
  | .error e =>
    ({ name := addrStr, fileType := 0, value := .vnil, bytes := [],
       error := some (.invalidAddress e) }, [])
  | .ok addr =>
    match net.single addr with
    | .error msg =>
      ({ name := addrStr, fileType := 0, value := .vnil, bytes := [],
         error := some (.readFailed msg) }, [.singleRead addr])
    | .ok bytes =>
      ({ name := addrStr, fileType := addr.fileType, value := decodeValue addr bytes,
         bytes := bytes, error := none }, [.singleRead addr])

/-- Loop of Client.Read in pccc/client.go over all addresses, in order. -/
def clientRead (net : PCCCNet) (addresses : List String) : List CTag × List NetOp :=
  (addresses.map (fun s => (clientReadOne net s).1),
   addresses.flatMap (fun s => (clientReadOne net s).2))

/-- Client.Read of pccc/client.go including the call-level guards: a nil
client is the only call-level error, and zero addresses return a nil result
with a nil error before any protocol traffic. -/
def clientReadTop (nilClient : Bool) (net : PCCCNet) (addresses : List String) :
    Except String (List CTag × List NetOp) :=
  if nilClient then .error "Read: nil client"
  else if addresses.length = 0 then .ok ([], [])
  else .ok (clientRead net addresses)

/-- Per-request error of PCCCAdapter.Read in driver/pccc.go. -/
inductive DErr where
  | invalidAddress (e : AddrErr)
  | clientErr (e : CErr)
  | nilResponse
deriving Repr, DecidableEq

/-- driver.TagValue as filled by PCCCAdapter.Read (the driver TagValue struct
itself is declared outside src/, its fields are taken from the assignments
in driver/pccc.go). -/
structure DTag where
  name : String
  dataType : Nat
  family : String
  value : GoVal
  stableValue : GoVal
  bytes : List Nat
  count : Nat
  error : Option DErr
deriving Repr

/-- Parsed address of request i, default when the parse failed (only used at
indices whose parse succeeded; Go keeps the parsed array alongside). -/
def addrOf (reqs : List String) (i : Nat) : FileAddress :=
  match parseAddress (reqs.getD i "") with
  | .ok a => a
  | .error _ => default

/-- Bulkable classification of PCCCAdapter.Read: the address parsed and has
sub_element = 0 and bit < 0. -/
def isBulkable (reqs : List String) (i : Nat) : Bool :=
  match parseAddress (reqs.getD i "") with
  | .ok a => a.subElement == 0 && decide (a.bitNumber < 0)
  | .error _ => false

/-- Result entry recorded for a request whose address failed to parse. -/
def mkParseErrTag (family name : String) (e : AddrErr) : DTag :=
  { name := name, dataType := 0, family := family, value := .vnil, stableValue := .vnil,
    bytes := [], count := 0, error := some (.invalidAddress e) }

/-- Result array after the parse-error pass of PCCCAdapter.Read: parse errors
are filled in immediately, every other slot is still nil. -/
def initResults (family : String) (reqs : List String) : List (Option DTag) :=
  reqs.map (fun name =>
    match parseAddress name with
    | .error e => some (mkParseErrTag family name e)
    | .ok _ => none)

/-- handled array after the parse-error pass: exactly the parse errors. -/
def initHandled (reqs : List String) : List Bool :=
  reqs.map (fun name =>
    match parseAddress name with
    | .error _ => true
    | .ok _ => false)

/-- Group key (FileNumber, FileType) of PCCCAdapter.Read. -/
def groupKeyOf (reqs : List String) (i : Nat) : Nat × Nat :=
  ((addrOf reqs i).fileNumber, (addrOf reqs i).fileType)

/-- Appends index i to its group, keeping groups in first-appearance order.
Go iterates its group map in unspecified order; all groups touch disjoint
request indices, so the result array does not depend on that order and the
model fixes first-appearance order. -/
def insertGroup (gs : List ((Nat × Nat) × List Nat)) (k : Nat × Nat) (i : Nat) :
    List ((Nat × Nat) × List Nat) :=
  match gs with
  | [] => [(k, [i])]
  | (k2, l) :: rest =>
    if k2 = k then (k2, l ++ [i]) :: rest else (k2, l) :: insertGroup rest k i

/-- Grouping loop of PCCCAdapter.Read over the bulkable indices in input
order. -/
def buildGroups (reqs : List String) : List ((Nat × Nat) × List Nat) :=
  (List.range reqs.length).foldl
    (fun gs i => if isBulkable reqs i then insertGroup gs (groupKeyOf reqs i) i else gs) []

/-- State threaded through the bulk phase of PCCCAdapter.Read. -/
structure BulkSt where
  results : List (Option DTag)
  handled : List Bool
  trace : List NetOp
deriving Repr

/-- Records a bulk-decoded element for request i: result and handled are set
together, as in the chunk success loop of PCCCAdapter.Read. -/
def setBulkResult (family : String) (reqs : List String) (chunkFt : Nat)
    (elemBytes : List Nat) (i : Nat) (st : BulkSt) : BulkSt :=
  { st with
    results := st.results.set i (some
      { name := reqs.getD i "", dataType := chunkFt, family := family,
        value := decodeValue (addrOf reqs i) elemBytes,
        stableValue := decodeValue (addrOf reqs i) elemBytes,
        bytes := elemBytes, count := 1, error := none }),
    handled := st.handled.set i true }

/-- Distribution of a successful bulk response over the chunk's requests:
element j gets bytes [j*elemSize, (j+1)*elemSize); a truncated response
breaks out, leaving the remaining indices unhandled. -/
def applyChunkBytes (family : String) (reqs : List String) (elemSize chunkFt : Nat)
    (bytes : List Nat) : List Nat → Nat → BulkSt → BulkSt
  | [], _, st => st
  | i :: rest, j, st =>
    if bytes.length < j * elemSize + elemSize then st
    else
      applyChunkBytes family reqs elemSize chunkFt bytes rest (j + 1)
        (setBulkResult family reqs chunkFt ((bytes.drop (j * elemSize)).take elemSize) i st)

/-- One chunk of the bulk phase: issue ReadAddressN for the chunk's first
address and the chunk length; on failure fall through (the chunk's indices
stay unhandled for individual reads), on success distribute the bytes. -/
def applyChunk (net : PCCCNet) (family : String) (reqs : List String) (elemSize : Nat)
    (chunk : List Nat) (st : BulkSt) : BulkSt :=
  match net.bulk (addrOf reqs (chunk.getD 0 0)) chunk.length with
  | .error _ =>
    { st with trace := st.trace ++ [.bulkRead (addrOf reqs (chunk.getD 0 0)) chunk.length] }
  | .ok bytes =>
    applyChunkBytes family reqs elemSize (addrOf reqs (chunk.getD 0 0)).fileType bytes chunk 0
      { st with trace := st.trace ++ [.bulkRead (addrOf reqs (chunk.getD 0 0)) chunk.length] }

/-- One group of the bulk phase: groups with fewer than 2 requests are
skipped; otherwise sort by element number and process the planned chunks.
Go's sort.Slice is unstable on equal elements; equal elements end a run
either way, and the model uses the stable insertion sort. -/
def applyGroup (net : PCCCNet) (family : String) (reqs : List String)
    (indices : List Nat) (st : BulkSt) : BulkSt :=
  if indices.length < 2 then st
  else
    let elemOf := fun i => (addrOf reqs i).element
    let sorted := List.insertionSort (fun a b => elemOf a ≤ elemOf b) indices
    let ft := (addrOf reqs (sorted.getD 0 0)).fileType
    (plannedChunks sorted elemOf ft).foldl
      (fun s c => applyChunk net family reqs (ElementSize ft) c s) st

/-- Bulk phase of PCCCAdapter.Read: parse-error fill followed by the group
loop. -/
def bulkPhase (net : PCCCNet) (family : String) (reqs : List String) : BulkSt :=
  (buildGroups reqs).foldl (fun st g => applyGroup net family reqs g.2 st)
    { results := initResults family reqs, handled := initHandled reqs, trace := [] }

/-- Translation of a client TagValue into a driver TagValue, as in the
fallback loop of PCCCAdapter.Read (the nil-response branch there is
unreachable in the model because Client.Read never appends nil entries). -/
def dtagOfClient (family : String) (v : CTag) : DTag :=
  { name := v.name, dataType := v.fileType, family := family, value := v.value,
    stableValue := v.value, bytes := v.bytes, count := 1,
    error := v.error.map .clientErr }

/-- Fallback phase of PCCCAdapter.Read: every index the bulk phase left
unhandled (non-bulkable, singleton, failed or truncated chunk) is served by
Client.Read one-by-one, in index order. -/
def indivPhase (net : PCCCNet) (family : String) (reqs : List String) (st : BulkSt) :
    List (Option DTag) × List NetOp :=
  let rem := (List.range reqs.length).filter (fun i => !(st.handled.getD i false))
  (rem.foldl
    (fun res i => res.set i (some (dtagOfClient family (clientReadOne net (reqs.getD i "")).1)))
    st.results,
   st.trace ++ rem.flatMap (fun i => (clientReadOne net (reqs.getD i "")).2))

/-- PCCCAdapter.Read of driver/pccc.go with the network abstracted: bulk
phase, then individual fallback. -/
def adapterRead (net : PCCCNet) (family : String) (reqs : List String) :
    List (Option DTag) × List NetOp :=
  indivPhase net family reqs (bulkPhase net family reqs)

/-- PCCCAdapter.Read including its call-level guards: not-connected is the
only call-level error and an empty request list returns nil results and a
nil error before any protocol traffic. -/
def adapterReadTop (notConnected : Bool) (net : PCCCNet) (family : String)
    (reqs : List String) : Except String (List (Option DTag) × List NetOp) :=
  if notConnected then .error "not connected"
  else if reqs.length = 0 then .ok ([], [])
  else .ok (adapterRead net family reqs)

/-! ### Invariants of the read orchestration -/

theorem foldl_inv {α β : Type} (P : β → Prop) (f : β → α → β) :
    ∀ (l : List α) (b : β), P b → (∀ (b2 : β) (a : α), P b2 → P (f b2 a)) →
      P (l.foldl f b) := by
  intro l
  induction l with
  | nil => intro b hb _; exact hb
  | cons x xs ih => intro b hb hf; exact ih (f b x) (hf b x hb) hf

theorem getD_map_lt {α β : Type} (f : α → β) (l : List α) (i : Nat) (d : β) (d2 : α)
    (h : i < l.length) : (l.map f).getD i d = f (l.getD i d2) := by
  rw [List.getD_eq_getElem?_getD, List.getD_eq_getElem?_getD, List.getElem?_map,
    List.getElem?_eq_getElem h]
  simp

theorem getD_set_self {α : Type} (l : List α) (i : Nat) (v d : α) (h : i < l.length) :
    (l.set i v).getD i d = v := by
  rw [List.getD_eq_getElem?_getD, List.getElem?_set_self]
  · simp
  · exact h

theorem getD_set_ne {α : Type} (l : List α) (i j : Nat) (v d : α) (h : i ≠ j) :
    (l.set i v).getD j d = l.getD j d := by
  rw [List.getD_eq_getElem?_getD, List.getD_eq_getElem?_getD, List.getElem?_set_ne h]

/-- Invariant of the bulk phase: result and handled arrays keep the request
count, and every handled slot already carries a non-nil entry named after
its request. -/
def StInv (reqs : List String) (st : BulkSt) : Prop :=
  st.results.length = reqs.length ∧ st.handled.length = reqs.length ∧
  ∀ i, i < reqs.length → st.handled.getD i false = true →
    ∃ tv, st.results.getD i none = some tv ∧ tv.name = reqs.getD i ""

theorem stInv_init (family : String) (reqs : List String) :
    StInv reqs { results := initResults family reqs, handled := initHandled reqs,
                 trace := [] } := by
  refine ⟨List.length_map _ _, List.length_map _ _, ?_⟩
  intro i hi hh
  have hhd : (initHandled reqs).getD i false =
      (match parseAddress (reqs.getD i "") with
       | .error _ => true
       | .ok _ => false) := getD_map_lt _ reqs i false "" hi
  have hrd : (initResults family reqs).getD i none =
      (match parseAddress (reqs.getD i "") with
       | .error e => some (mkParseErrTag family (reqs.getD i "") e)
       | .ok _ => none) := getD_map_lt _ reqs i none "" hi
  have hh2 : (initHandled reqs).getD i false = true := hh
  rw [hhd] at hh2
  cases hp : parseAddress (reqs.getD i "") with
  | error e =>
    refine ⟨mkParseErrTag family (reqs.getD i "") e, ?_, rfl⟩
    show (initResults family reqs).getD i none = _
    rw [hrd, hp]
  | ok a => rw [hp] at hh2; cases hh2

theorem stInv_setBulkResult (family : String) (reqs : List String) (chunkFt : Nat)
    (elemBytes : List Nat) (i : Nat) (st : BulkSt) (h : StInv reqs st) :
    StInv reqs (setBulkResult family reqs chunkFt elemBytes i st) := by
  obtain ⟨h1, h2, h3⟩ := h
  refine ⟨by simp [setBulkResult, h1], by simp [setBulkResult, h2], ?_⟩
  intro q hq hh
  by_cases hqi : q = i
  · subst hqi
    refine ⟨_, getD_set_self st.results q _ none (by omega), rfl⟩
  · simp only [setBulkResult] at hh
    rw [getD_set_ne st.handled i q true false (fun hc => hqi hc.symm)] at hh
    obtain ⟨tv, htv, hnm⟩ := h3 q hq hh
    refine ⟨tv, ?_, hnm⟩
    simp only [setBulkResult]
    rw [getD_set_ne st.results i q _ none (fun hc => hqi hc.symm)]
    exact htv

theorem stInv_applyChunkBytes (family : String) (reqs : List String)
    (elemSize chunkFt : Nat) (bytes : List Nat) :
    ∀ (chunk : List Nat) (j : Nat) (st : BulkSt), StInv reqs st →
      StInv reqs (applyChunkBytes family reqs elemSize chunkFt bytes chunk j st) := by
  intro chunk
  induction chunk with
  | nil => intro j st h; exact h
  | cons i rest ih =>
    intro j st h
    rw [applyChunkBytes]
    by_cases hb : bytes.length < j * elemSize + elemSize
    · rw [if_pos hb]; exact h
    · rw [if_neg hb]
      exact ih (j + 1) _ (stInv_setBulkResult family reqs chunkFt _ i st h)

theorem stInv_trace (reqs : List String) (st : BulkSt) (ops : List NetOp)
    (h : StInv reqs st) : StInv reqs { st with trace := st.trace ++ ops } := by
  obtain ⟨h1, h2, h3⟩ := h
  exact ⟨h1, h2, h3⟩

theorem stInv_applyChunk (net : PCCCNet) (family : String) (reqs : List String)
    (elemSize : Nat) (chunk : List Nat) (st : BulkSt) (h : StInv reqs st) :
    StInv reqs (applyChunk net family reqs elemSize chunk st) := by
  unfold applyChunk
  cases net.bulk (addrOf reqs (chunk.getD 0 0)) chunk.length with
  | error e => exact stInv_trace reqs st _ h
  | ok bytes =>
    exact stInv_applyChunkBytes family reqs elemSize _ bytes chunk 0 _
      (stInv_trace reqs st _ h)

theorem stInv_applyGroup (net : PCCCNet) (family : String) (reqs : List String)
    (indices : List Nat) (st : BulkSt) (h : StInv reqs st) :
    StInv reqs (applyGroup net family reqs indices st) := by
  unfold applyGroup
  by_cases hlt : indices.length < 2
  · rw [if_pos hlt]; exact h
  · rw [if_neg hlt]
    exact foldl_inv (StInv reqs) _ _ st h
      (fun st2 c h2 => stInv_applyChunk net family reqs _ c st2 h2)

theorem stInv_bulkPhase (net : PCCCNet) (family : String) (reqs : List String) :
    StInv reqs (bulkPhase net family reqs) := by
  unfold bulkPhase
  exact foldl_inv (StInv reqs) _ _ _ (stInv_init family reqs)
    (fun st g h => stInv_applyGroup net family reqs g.2 st h)

theorem foldl_set_length {α : Type} (g : Nat → α) :
    ∀ (rem : List Nat) (res : List α),
      (rem.foldl (fun r j => r.set j (g j)) res).length = res.length := by
  intro rem
  induction rem with
  | nil => intro res; rfl
  | cons j rest ih =>
    intro res
    rw [List.foldl_cons, ih, List.length_set]

theorem foldl_set_getD_not_mem {α : Type} (g : Nat → α) (d : α) :
    ∀ (rem : List Nat) (res : List α) (i : Nat), i ∉ rem →
      (rem.foldl (fun r j => r.set j (g j)) res).getD i d = res.getD i d := by
  intro rem
  induction rem with
  | nil => intro res i _; rfl
  | cons j rest ih =>
    intro res i hni
    have hij : j ≠ i := fun h => hni (h ▸ List.mem_cons_self j rest)
    rw [List.foldl_cons, ih (res.set j (g j)) i (fun h => hni (List.mem_cons_of_mem j h)),
      getD_set_ne res j i (g j) d hij]

theorem foldl_set_getD_mem {α : Type} (g : Nat → α) (d : α) :
    ∀ (rem : List Nat) (res : List α) (i : Nat), rem.Nodup → i ∈ rem → i < res.length →
      (rem.foldl (fun r j => r.set j (g j)) res).getD i d = g i := by
  intro rem
  induction rem with
  | nil => intro res i _ hmem _; cases hmem
  | cons j rest ih =>
    intro res i hnd hmem hlen
    rw [List.foldl_cons]
    by_cases hij : i = j
    · subst hij
      have hnotin : i ∉ rest := (List.nodup_cons.mp hnd).1
      rw [foldl_set_getD_not_mem g d rest (res.set i (g i)) i hnotin,
        getD_set_self res i (g i) d hlen]
    · have hmem2 : i ∈ rest := by
        cases hmem with
        | head => exact absurd rfl hij
        | tail _ h => exact h
      exact ih (res.set j (g j)) i (List.nodup_cons.mp hnd).2 hmem2
        (by rw [List.length_set]; exact hlen)

theorem clientReadOne_name (net : PCCCNet) (s : String) :
    (clientReadOne net s).1.name = s := by
  unfold clientReadOne
  cases parseAddress s with
  | error e => rfl
  | ok a =>
    dsimp only
    cases net.single a with
    | error m => rfl
    | ok bs => rfl

theorem indiv_rem_mem (reqs : List String) (st : BulkSt) (i : Nat) :
    i ∈ (List.range reqs.length).filter (fun i => !(st.handled.getD i false)) ↔
      (i < reqs.length ∧ st.handled.getD i false = false) := by
  rw [List.mem_filter, List.mem_range]
  simp

/-! ### Claim C1: adapter read shape, order, and fallback -/

/-- C1: for every request list and every behavior of the PLC oracle, the
adapter returns exactly one result per request, in input order: the i-th slot
is non-nil and named after the i-th request; a slot the bulk phase handled
(parse error or successfully decoded bulk element) keeps exactly the bulk
phase's entry, so no earlier bulk result is ever dropped; and every slot the
bulk phase left unhandled, including all requests of a failed bulk chunk and
the tail of a truncated one, is served by an individual Client.Read of that
request rather than aborting the call. -/
theorem c1_adapter_read_alignment (net : PCCCNet) (family : String) (reqs : List String) :
    ((adapterRead net family reqs).1.length = reqs.length) ∧
    (∀ i, i < reqs.length →
      ∃ tv, (adapterRead net family reqs).1.getD i none = some tv ∧
        tv.name = reqs.getD i "") ∧
    (∀ i, i < reqs.length →
      (bulkPhase net family reqs).handled.getD i false = true →
      (adapterRead net family reqs).1.getD i none =
        (bulkPhase net family reqs).results.getD i none) ∧
    (∀ i, i < reqs.length →
      (bulkPhase net family reqs).handled.getD i false = false →
      (adapterRead net family reqs).1.getD i none =
        some (dtagOfClient family (clientReadOne net (reqs.getD i "")).1)) := by
  obtain ⟨hlen, hhlen, hinv⟩ := stInv_bulkPhase net family reqs
  have hreslen : (adapterRead net family reqs).1.length = reqs.length := by
    unfold adapterRead indivPhase
    rw [foldl_set_length]
    exact hlen
  have hpres : ∀ i, i < reqs.length →
      (bulkPhase net family reqs).handled.getD i false = true →
      (adapterRead net family reqs).1.getD i none =
        (bulkPhase net family reqs).results.getD i none := by
    intro i hi hh
    unfold adapterRead indivPhase
    refine foldl_set_getD_not_mem _ none _ _ i ?_
    rw [indiv_rem_mem]
    intro hcon
    rw [hh] at hcon
    cases hcon.2
  have hserve : ∀ i, i < reqs.length →
      (bulkPhase net family reqs).handled.getD i false = false →
      (adapterRead net family reqs).1.getD i none =
        some (dtagOfClient family (clientReadOne net (reqs.getD i "")).1) := by
    intro i hi hh
    unfold adapterRead indivPhase
    refine foldl_set_getD_mem _ none _ _ i ?_ ?_ ?_
    · exact (List.nodup_range reqs.length).filter _
    · rw [indiv_rem_mem]; exact ⟨hi, hh⟩
    · rw [hlen]; exact hi
  refine ⟨hreslen, ?_, hpres, hserve⟩
  intro i hi
  by_cases hh : (bulkPhase net family reqs).handled.getD i false = true
  · obtain ⟨tv, htv, hnm⟩ := hinv i hi hh
    exact ⟨tv, by rw [hpres i hi hh]; exact htv, hnm⟩
  · rw [Bool.not_eq_true] at hh
    refine ⟨dtagOfClient family (clientReadOne net (reqs.getD i "")).1,
      hserve i hi hh, ?_⟩
    unfold dtagOfClient
    exact clientReadOne_name net (reqs.getD i "")

/-- Witness for C1 on the spec's end-to-end batch scenario with an oracle
that fails every bulk read: each of the six requests still gets a non-nil
result slot in input order. -/
theorem c1_adapter_read_alignment_witness :
    ∃ tv, (adapterRead
      { single := fun _ => .ok [9, 0], bulk := fun _ _ => .error "bulk failed" }
      "slc500" ["N7:0", "N7:1", "N7:2", "F8:0", "B3:0/5", "T4:0.ACC"]).1.getD 0 none =
        some tv ∧
      tv.name = (["N7:0", "N7:1", "N7:2", "F8:0", "B3:0/5", "T4:0.ACC"] : List String).getD 0 "" :=
  (c1_adapter_read_alignment
    { single := fun _ => .ok [9, 0], bulk := fun _ _ => .error "bulk failed" }
    "slc500" ["N7:0", "N7:1", "N7:2", "F8:0", "B3:0/5", "T4:0.ACC"]).2.1 0 (by decide)

/-! ### Claim C10: empty reads and nil clients -/

/-- C10: Client.Read with zero addresses and PCCCAdapter.Read with an empty
request list both return a nil result together with a nil error and perform
no protocol round-trip (empty trace); only a nil client or a disconnected
adapter produces a call-level error from these entry points. -/
theorem c10_empty_read_no_traffic (net : PCCCNet) (family : String)
    (reqs : List String) (addresses : List String) :
    clientReadTop false net [] = .ok ([], []) ∧
    adapterReadTop false net family [] = .ok ([], []) ∧
    clientReadTop true net addresses = .error "Read: nil client" ∧
    adapterReadTop true net family reqs = .error "not connected" :=
  ⟨rfl, rfl, rfl, rfl⟩

end Plcio
